import Mathlib

/-!
Verification of the parameter-schema engine of NLeSC/sim-city-explore.

The authoritative source for typed parameter specs is
`simcityexplore/parameter.py` (classes `ParameterDatatype`, `ParameterSpec`,
`FixedSpec`, `SimpleParameterSpec`, `ChoiceSpec`, `IntervalSpec`,
`StringSpec`, and the functions `parse_parameters` and
`parse_parameter_spec`).  Python floats are embedded as the type `PFloat`
below: exact rationals for finite values, plus the IEEE special values
positive infinity, negative infinity and nan, with the IEEE rules for which
operands yield which special value (finite arithmetic is exact rational
arithmetic; the claims settled here do not hinge on rounding).  Python
values are embedded as `PyVal`, exceptions as `Except PyErr`.
-/

/-- A Python float: a finite value (exact rational), `float("inf")`,
`float("-inf")` or `float("nan")`. -/
inductive PFloat where
  | fin (q : ℚ)
  | inf
  | ninf
  | nan
deriving DecidableEq, Repr

namespace PFloat

/-- IEEE addition. `inf + (-inf)` is nan; nan propagates. -/
def add : PFloat → PFloat → PFloat
  | nan, _ => nan
  | _, nan => nan
  | fin a, fin b => fin (a + b)
  | fin _, inf => inf
  | fin _, ninf => ninf
  | inf, fin _ => inf
  | ninf, fin _ => ninf
  | inf, inf => inf
  | ninf, ninf => ninf
  | inf, ninf => nan
  | ninf, inf => nan

/-- IEEE subtraction. `inf - inf` is nan; nan propagates. -/
def sub : PFloat → PFloat → PFloat
  | nan, _ => nan
  | _, nan => nan
  | fin a, fin b => fin (a - b)
  | fin _, inf => ninf
  | fin _, ninf => inf
  | inf, fin _ => inf
  | ninf, fin _ => ninf
  | inf, inf => nan
  | ninf, ninf => nan
  | inf, ninf => inf
  | ninf, inf => ninf

/-- IEEE multiplication. `0 * inf` is nan; signs multiply; nan propagates. -/
def mul : PFloat → PFloat → PFloat
  | nan, _ => nan
  | _, nan => nan
  | fin a, fin b => fin (a * b)
  | fin a, inf => if a > 0 then inf else if a < 0 then ninf else nan
  | fin a, ninf => if a > 0 then ninf else if a < 0 then inf else nan
  | inf, fin b => if b > 0 then inf else if b < 0 then ninf else nan
  | ninf, fin b => if b > 0 then ninf else if b < 0 then inf else nan
  | inf, inf => inf
  | ninf, ninf => inf
  | inf, ninf => ninf
  | ninf, inf => ninf

/-- IEEE true division with a nonzero divisor (the zero-divisor case is a
`ZeroDivisionError` and is rejected before this function is reached). -/
def divNZ : PFloat → PFloat → PFloat
  | nan, _ => nan
  | _, nan => nan
  | fin a, fin b => fin (a / b)
  | fin _, inf => fin 0
  | fin _, ninf => fin 0
  | inf, fin b => if b > 0 then inf else ninf
  | ninf, fin b => if b > 0 then ninf else inf
  | inf, inf => nan
  | ninf, ninf => nan
  | inf, ninf => nan
  | ninf, inf => nan

/-- IEEE `<=` as Python evaluates it: any comparison with nan is `False`. -/
def leB : PFloat → PFloat → Bool
  | nan, _ => false
  | _, nan => false
  | ninf, _ => true
  | fin _, inf => true
  | inf, inf => true
  | inf, fin _ => false
  | inf, ninf => false
  | fin _, ninf => false
  | fin a, fin b => decide (a ≤ b)

/-- IEEE `<` as Python evaluates it: any comparison with nan is `False`. -/
def ltB : PFloat → PFloat → Bool
  | nan, _ => false
  | _, nan => false
  | ninf, ninf => false
  | ninf, _ => true
  | fin _, inf => true
  | inf, _ => false
  | fin _, ninf => false
  | fin a, fin b => decide (a < b)

/-- IEEE `==` as Python evaluates it: `nan == nan` is `False`. -/
def eqB : PFloat → PFloat → Bool
  | fin a, fin b => decide (a = b)
  | inf, inf => true
  | ninf, ninf => true
  | _, _ => false

/-- `b >= a` is `a <= b`. -/
def geB (x y : PFloat) : Bool := leB y x

/-- `b > a` is `a < b`. -/
def gtB (x y : PFloat) : Bool := ltB y x

end PFloat

/-- Truncation toward zero of a rational, as Python `int(float)` rounds. -/
def truncQ (q : ℚ) : ℤ := if 0 ≤ q then ⌊q⌋ else ⌈q⌉

/-- A Python value, as passed around by `parameter.py`: `None`, a bool, an
int (arbitrary precision), a float, a string, a list or a dict with string
keys. -/
inductive PyVal where
  | none
  | bool (b : Bool)
  | int (i : ℤ)
  | float (x : PFloat)
  | str (s : String)
  | list (xs : List PyVal)
  | dict (fields : List (String × PyVal))
deriving Repr

/-- A raised Python exception, with just enough structure for the spec
claims.  All the errors `parse_parameters` raises are `ValueError` in the
source; the distinct constructors here carry the content of the formatted
message (`unknownParams` for "parameters ... not specified", `missingParam`
for "parameter for ... is not specified", `coercionFailure` and
`invalidValue` for "value of ... does not comply to ..."). -/
inductive PyErr where
  | typeError (msg : String)
  | valueError (msg : String)
  | keyError (key : String)
  | overflowError (msg : String)
  | zeroDivisionError
  | indexError
  | notImplementedErr
  | attributeErr (msg : String)
  | unknownParams (extra : List String)
  | missingParam (name : String)
  | coercionFailure (name : String)
  | invalidValue (name : String)
deriving DecidableEq, Repr

namespace PyVal

/-- The numeric view Python takes when mixing bools, ints and floats in
arithmetic and comparisons: `True` is 1, `False` is 0, ints embed exactly. -/
def toPF : PyVal → Option PFloat
  | .bool b => some (.fin (if b then 1 else 0))
  | .int i => some (.fin (i : ℚ))
  | .float x => some x
  | _ => Option.none

/-- The exact-integer view of a bool or int. -/
def toZ : PyVal → Option ℤ
  | .bool b => some (if b then 1 else 0)
  | .int i => some i
  | _ => Option.none

end PyVal

/-- Python `==` between two values.  Numeric values (bool/int/float) compare
by value across types and `nan == nan` is `False`; strings compare by
content; `None == None` is `True`.  Python compares lists and dicts
elementwise, which is modelled here as `False`: every comparison the
modelled code performs (`value in self._choices` in `ChoiceSpec.is_valid`,
the `==` tests in `IntervalSpec.__init__`) has at least one operand freshly
produced by `ParameterDatatype.coerce`, whose dtype is one of int, float,
str, bool, so a container never meets a container there. -/
def pyEqB : PyVal → PyVal → Bool
  | a, b =>
    match a.toPF, b.toPF with
    | some x, some y => PFloat.eqB x y
    | _, _ =>
      match a, b with
      | .str s, .str t => decide (s = t)
      | .none, .none => true
      | _, _ => false

/-! ## `ParameterDatatype` (parameter.py:92-141) -/

/-- The four datatypes of `ParameterDatatype.TYPE_STR` (parameter.py:93-98):
int, float, str, bool. -/
inductive ParameterDatatype where
  | int
  | float
  | str
  | bool
deriving DecidableEq, Repr

/-- `ParameterDatatype.__init__` for a string argument (parameter.py:100-111):
look the name up in `TYPE_STR`, raising `ValueError` for an unknown name. -/
def ParameterDatatype.ofName : String → Except PyErr ParameterDatatype
  | "int" => .ok .int
  | "float" => .ok .float
  | "str" => .ok .str
  | "bool" => .ok .bool
  | s => .error (.valueError ("Type " ++ s ++ " unknown"))

/-- The value of one decimal digit character. -/
def digitVal (c : Char) : Option ℕ :=
  if c.isDigit then some (c.toNat - '0'.toNat) else Option.none

/-- Accumulating pass over a digit run. -/
def parseDigitsAux : List Char → ℕ → Option ℕ
  | [], acc => some acc
  | c :: cs, acc =>
    match digitVal c with
    | some d => parseDigitsAux cs (acc * 10 + d)
    | Option.none => Option.none

/-- A digit run parsed as a natural number; `Option.none` when the character
list is empty or holds a non-digit. -/
def parseDigits : List Char → Option ℕ
  | [] => Option.none
  | cs => parseDigitsAux cs 0

/-- Python `int(s)` on a string: an optional sign followed by digits.
(The source language also strips whitespace and accepts underscores; the
claims exercise only plain literals, so those forms are not modelled.) -/
def parseIntStr : String → Option ℤ
  | s =>
    match s.toList with
    | '-' :: cs => (parseDigits cs).map (fun n => -(n : ℤ))
    | '+' :: cs => (parseDigits cs).map (fun n => (n : ℤ))
    | cs => (parseDigits cs).map (fun n => (n : ℤ))

/-- Python `float(s)` on a string: an optional sign, digits, and an optional
fractional part.  (Exponent forms, `"inf"` and `"nan"` literals are not
modelled; the claims exercise only plain decimal literals.) -/
def parseFloatStr : String → Option ℚ
  | s =>
    let core : List Char → Option ℚ := fun cs =>
      match cs.splitOn '.' with
      | [whole] => (parseDigits whole).map (fun n => (n : ℚ))
      | [whole, frac] => do
        let w ← parseDigits whole
        let f ← parseDigits frac
        pure ((w : ℚ) + (f : ℚ) / (10 : ℚ) ^ frac.length)
      | _ => Option.none
    match s.toList with
    | '-' :: cs => (core cs).map (fun q => -q)
    | '+' :: cs => (core cs).map (fun q => q)
    | cs => core cs

/-- Python `str(v)` for the value forms the modelled code can reach: the
string itself, `"True"`/`"False"`, the decimal form of an int.  Python can
also render floats, lists and dicts; those reprs (shortest-roundtrip float
formatting, bracketed containers) are abbreviated here, and no modelled
claim observes them. -/
def pyStr : PyVal → String
  | .str s => s
  | .bool b => if b then "True" else "False"
  | .int i => toString i
  | .float _ => "<float>"
  | .none => "None"
  | .list _ => "<list>"
  | .dict _ => "<dict>"

/-- Python truthiness, for `bool(v)`. -/
def pyTruthy : PyVal → Bool
  | .none => false
  | .bool b => b
  | .int i => decide (i ≠ 0)
  | .float (.fin q) => decide (q ≠ 0)
  | .float _ => true
  | .str s => !(s == "")
  | .list xs => !xs.isEmpty
  | .dict fs => !fs.isEmpty

namespace ParameterDatatype

/-- `type(value) == self.dtype` (parameter.py:124 and 140-141).  Note that a
Python bool is not of type int, and nan and the infinities are of type
float. -/
def is_valid : ParameterDatatype → PyVal → Bool
  | .int, .int _ => true
  | .float, .float _ => true
  | .str, .str _ => true
  | .bool, .bool _ => true
  | _, _ => false

/-- The Python conversion call `self.dtype(value)` on parameter.py:129.
`int()` truncates floats toward zero (`OverflowError` on the infinities,
`ValueError` on nan), parses strings, and rejects `None` and containers
with `TypeError`; `float()` embeds ints and bools and parses strings;
`str()` and `bool()` accept everything. -/
def convert : ParameterDatatype → PyVal → Except PyErr PyVal
  | .int, v =>
    match v with
    | .bool b => .ok (.int (if b then 1 else 0))
    | .int i => .ok (.int i)
    | .float (.fin q) => .ok (.int (truncQ q))
    | .float .inf => .error (.overflowError "cannot convert float infinity to integer")
    | .float .ninf => .error (.overflowError "cannot convert float infinity to integer")
    | .float .nan => .error (.valueError "cannot convert float nan to integer")
    | .str s =>
      match parseIntStr s with
      | some i => .ok (.int i)
      | Option.none => .error (.valueError ("invalid literal for int: " ++ s))
    | _ => .error (.typeError "int() argument must be a string or a number")
  | .float, v =>
    match v with
    | .bool b => .ok (.float (.fin (if b then 1 else 0)))
    | .int i => .ok (.float (.fin (i : ℚ)))
    | .float x => .ok (.float x)
    | .str s =>
      match parseFloatStr s with
      | some q => .ok (.float (.fin q))
      | Option.none => .error (.valueError ("could not convert string to float: " ++ s))
    | _ => .error (.typeError "float() argument must be a string or a number")
  | .str, v => .ok (.str (pyStr v))
  | .bool, v => .ok (.bool (pyTruthy v))

/-- `ParameterDatatype.coerce` (parameter.py:123-129): a value already of
the dtype passes through, `None` with dtype str becomes the empty string,
anything else goes through the dtype conversion call. -/
def coerce (d : ParameterDatatype) (v : PyVal) : Except PyErr PyVal :=
  if d.is_valid v then .ok v
  else
    match v, d with
    | PyVal.none, ParameterDatatype.str => .ok (.str "")
    | _, _ => d.convert v

/-- `ParameterDatatype.coerce_if_set` (parameter.py:117-121). -/
def coerce_if_set (d : ParameterDatatype) (v : Option PyVal) (default : PyVal) :
    Except PyErr PyVal :=
  match v with
  | Option.none => .ok default
  | some w => d.coerce w

end ParameterDatatype

/-! ## Python operators on `PyVal` -/

/-- Python `a + b`: exact-int addition when both operands are ints or bools,
IEEE float addition when both are numeric and one is a float, string and
list concatenation, `TypeError` otherwise. -/
def pyAdd (a b : PyVal) : Except PyErr PyVal :=
  match a.toZ, b.toZ with
  | some i, some j => .ok (.int (i + j))
  | _, _ =>
    match a.toPF, b.toPF with
    | some x, some y => .ok (.float (PFloat.add x y))
    | _, _ =>
      match a, b with
      | .str s, .str t => .ok (.str (s ++ t))
      | .list xs, .list ys => .ok (.list (xs ++ ys))
      | _, _ => .error (.typeError "unsupported operand type for +")

/-- Python `a - b`: exact on ints and bools, IEEE on floats, `TypeError`
otherwise. -/
def pySub (a b : PyVal) : Except PyErr PyVal :=
  match a.toZ, b.toZ with
  | some i, some j => .ok (.int (i - j))
  | _, _ =>
    match a.toPF, b.toPF with
    | some x, some y => .ok (.float (PFloat.sub x y))
    | _, _ => .error (.typeError "unsupported operand type for -")

/-- Python `a * b`: exact on ints and bools, IEEE on floats, sequence
repetition for a string and an int, `TypeError` otherwise. -/
def pyMul (a b : PyVal) : Except PyErr PyVal :=
  match a.toZ, b.toZ with
  | some i, some j => .ok (.int (i * j))
  | _, _ =>
    match a.toPF, b.toPF with
    | some x, some y => .ok (.float (PFloat.mul x y))
    | _, _ =>
      match a, b with
      | .str s, .int k => .ok (.str (String.join (List.replicate k.toNat s)))
      | .int k, .str s => .ok (.str (String.join (List.replicate k.toNat s)))
      | _, _ => .error (.typeError "unsupported operand type for *")

/-- Python `a / b` (true division): numeric operands give a float,
`ZeroDivisionError` on a zero divisor, `TypeError` otherwise. -/
def pyDiv (a b : PyVal) : Except PyErr PyVal :=
  match a.toPF, b.toPF with
  | some x, some y =>
    if PFloat.eqB y (.fin 0) then .error .zeroDivisionError
    else .ok (.float (PFloat.divNZ x y))
  | _, _ => .error (.typeError "unsupported operand type for /")

/-- Python `a <= b`: numeric comparison across bool/int/float (`False` for
nan), lexicographic on strings, `TypeError` on unordered mixes. -/
def pyLe (a b : PyVal) : Except PyErr Bool :=
  match a.toPF, b.toPF with
  | some x, some y => .ok (PFloat.leB x y)
  | _, _ =>
    match a, b with
    | .str s, .str t => .ok (decide (s ≤ t))
    | _, _ => .error (.typeError "unorderable types")

/-- Python `a < b`. -/
def pyLt (a b : PyVal) : Except PyErr Bool :=
  match a.toPF, b.toPF with
  | some x, some y => .ok (PFloat.ltB x y)
  | _, _ =>
    match a, b with
    | .str s, .str t => .ok (decide (s < t))
    | _, _ => .error (.typeError "unorderable types")

/-- Python `a >= b`. -/
def pyGe (a b : PyVal) : Except PyErr Bool := pyLe b a

/-- Python `a > b`. -/
def pyGt (a b : PyVal) : Except PyErr Bool := pyLt b a

/-- The Bool ordering used when modelling `list.sort()`: the coerced choice
lists it sorts hold values of one dtype, which are always mutually
orderable, so the `TypeError` arm of `pyLe` is unreachable there and is
flattened to `false`. -/
def pyLeB (a b : PyVal) : Bool :=
  match pyLe a b with
  | .ok r => r
  | .error _ => false

/-- Python sequence indexing `l[i]`: a negative index counts from the end,
an index out of range raises `IndexError`. -/
def pyIndex (l : List PyVal) (i : ℤ) : Except PyErr PyVal :=
  if h : 0 ≤ i ∧ i.toNat < l.length then .ok (l.get ⟨i.toNat, h.2⟩)
  else if h2 : i < 0 ∧ (i + l.length).toNat < l.length ∧ 0 ≤ i + l.length then
    .ok (l.get ⟨(i + l.length).toNat, h2.2.1⟩)
  else .error .indexError

/-- Python `int(v)` as a builtin call (`int(mapping * len(...))` in
`ChoiceSpec.choose`): the int conversion, then the underlying integer. -/
def pyIntOf (v : PyVal) : Except PyErr ℤ :=
  match ParameterDatatype.convert .int v with
  | .ok (.int i) => .ok i
  | .ok _ => .error (.typeError "int() returned a non-int")
  | .error e => .error e

/-- Stable insertion of one element into a list ordered by `pyLeB`. -/
def pyInsert (p : PyVal) : List PyVal → List PyVal
  | [] => [p]
  | q :: qs => if pyLeB p q then p :: q :: qs else q :: pyInsert p qs

/-- `list.sort()`: a stable sort by `pyLeB` (Python uses a stable mergesort;
on a totally preordered list any stable sort yields the same result, and
the coerced single-dtype choice lists sorted by the modelled code are
totally preordered). -/
def pySort : List PyVal → List PyVal
  | [] => []
  | p :: ps => pyInsert p (pySort ps)

/-- `type(a)(b)`: Python calls the type of `a` as a constructor on `b`
(used by `FixedSpec.coerce`, parameter.py:177-178). -/
def pyTypeConvert : PyVal → PyVal → Except PyErr PyVal
  | .int _, v => ParameterDatatype.int.convert v
  | .float _, v => ParameterDatatype.float.convert v
  | .str _, v => ParameterDatatype.str.convert v
  | .bool _, v => ParameterDatatype.bool.convert v
  | _, _ => .error (.typeError "type() call not modelled for this value")

/-! ## `IntervalSpec` (parameter.py:271-336) -/

/-- The state of a constructed `IntervalSpec`: its name, parsed dtype, the
stored `_min`/`_max` (never None: `__init__` defaults an absent bound to a
float infinity) and the coerced default. -/
structure IntervalSpec where
  name : String
  dtype : ParameterDatatype
  min : PyVal
  max : PyVal
  default : PyVal
deriving Repr

/-- `SimpleParameterSpec.coerce` (parameter.py:219-220): coerce through the
declared dtype. -/
def IntervalSpec.coerce (s : IntervalSpec) (v : PyVal) : Except PyErr PyVal :=
  s.dtype.coerce v

/-- `IntervalSpec.is_valid` (parameter.py:305-308):
`value >= self.min and value <= self.max and self.dtype.is_valid(value)`,
with Python short-circuiting, so a failed bound comparison hides the dtype
test and a raising comparison propagates. -/
def IntervalSpec.is_valid (s : IntervalSpec) (v : PyVal) : Except PyErr Bool := do
  let ge ← pyGe v s.min
  if !ge then pure false
  else do
    let le ← pyLe v s.max
    if !le then pure false
    else pure (s.dtype.is_valid v)

/-- The default-filling block of `IntervalSpec.__init__`
(parameter.py:285-291): an explicit default passes through; otherwise the
finite bound when one side is the default infinity, else the midpoint
`(_min + _max) / 2` (true division). -/
def intervalDefault (mn mx : PyVal) (default : Option PyVal) : Except PyErr PyVal :=
  match default with
  | some v => .ok v
  | Option.none =>
    if pyEqB mn (.float .ninf) then .ok mx
    else if pyEqB mx (.float .inf) then .ok mn
    else do
      let sum ← pyAdd mn mx
      pyDiv sum (.int 2)

/-- The default handling of `SimpleParameterSpec.__init__`
(parameter.py:206-209): `None` stays `None`, anything else is coerced. -/
def simpleDefault (d : ParameterDatatype) (default : Option PyVal) :
    Except PyErr (Option PyVal) :=
  match default with
  | Option.none => .ok Option.none
  | some v => (d.coerce v).map some

/-- `IntervalSpec.__init__` (parameter.py:275-295): parse the dtype, store
`_min = dtype.coerce_if_set(min_value, float("-inf"))` and
`_max = dtype.coerce_if_set(max_value, float("+inf"))`, reject `_min >
_max`, fill in a missing default (the finite bound when one side is the
default infinity, the midpoint `(_min + _max) / 2` otherwise), coerce it
(`SimpleParameterSpec.__init__`, parameter.py:202-209), and reject an
invalid default. -/
def IntervalSpec.init (name : String) (dtypeName : String)
    (min_value max_value default : Option PyVal) : Except PyErr IntervalSpec := do
  let d ← ParameterDatatype.ofName dtypeName
  let mn ← d.coerce_if_set min_value (.float .ninf)
  let mx ← d.coerce_if_set max_value (.float .inf)
  let gt ← pyGt mn mx
  if gt then throw (.valueError "Minimum to an interval must be smaller than maximum")
  else do
    let dflt ← intervalDefault mn mx default
    let dflt ← d.coerce dflt
    let s : IntervalSpec := ⟨name, d, mn, mx, dflt⟩
    let ok ← s.is_valid dflt
    if ok then pure s
    else throw (.valueError "default value for interval not valid")

/-- `IntervalSpec.choose` (parameter.py:310-323).  The source branches on
`self.min is not None` and `self.max is not None`, but `__init__` stores
`dtype.coerce_if_set(min_value, float("-inf"))`, which is never None, so
only the first branch — the linear map `mapping * (max - min) + min`,
coerced to the dtype — is reachable.  The exponential-tail branches, the
`mapping == 0.0` negative-infinity branch and the double-exponential branch
(parameter.py:313-323) are dead code; the last would raise `AttributeError`
even if reached, since Python's math module has no `sign` and no `abs`. -/
def IntervalSpec.choose (s : IntervalSpec) (mapping : PyVal) : Except PyErr PyVal := do
  let width ← pySub s.max s.min
  let scaled ← pyMul mapping width
  let shifted ← pyAdd scaled s.min
  s.coerce shifted

/-! ## `ChoiceSpec` (parameter.py:232-268) -/

/-- The state of a constructed `ChoiceSpec`: name, parsed dtype, coerced
default, and the coerced, sorted choice list `_choices`. -/
structure ChoiceSpec where
  name : String
  dtype : ParameterDatatype
  default : PyVal
  choices : List PyVal
deriving Repr

/-- `ChoiceSpec.__init__` (parameter.py:236-246): reject a non-list or
empty `choices`, default to the first choice, run
`SimpleParameterSpec.__init__` (dtype parse and default coercion), then
store each choice coerced to the dtype, sorted. -/
def ChoiceSpec.init (name : String) (choicesArg : PyVal) (dtypeName : String)
    (default : Option PyVal) : Except PyErr ChoiceSpec := do
  match choicesArg with
  | .list choices =>
    if choices.isEmpty then throw (.valueError "At least one choice is required.")
    else do
      let dflt :=
        match default with
        | some v => v
        | Option.none => choices.headD PyVal.none
      let d ← ParameterDatatype.ofName dtypeName
      let dflt ← d.coerce dflt
      let coerced ← choices.mapM d.coerce
      pure ⟨name, d, dflt, pySort coerced⟩
  | _ => throw (.valueError "Choices must be provided as a list")

/-- `ChoiceSpec.is_valid` (parameter.py:252-253):
`self.dtype.is_valid(value) and value in self._choices`. -/
def ChoiceSpec.is_valid (s : ChoiceSpec) (v : PyVal) : Bool :=
  s.dtype.is_valid v && s.choices.any (fun c => pyEqB v c)

/-- `ChoiceSpec.choose` (parameter.py:255-257):
`idx = int(mapping * len(self._choices)); return self._choices[idx]`. -/
def ChoiceSpec.choose (s : ChoiceSpec) (mapping : PyVal) : Except PyErr PyVal := do
  let scaled ← pyMul mapping (.int s.choices.length)
  let idx ← pyIntOf scaled
  pyIndex s.choices idx

/-- `SimpleParameterSpec.coerce` for a `ChoiceSpec`. -/
def ChoiceSpec.coerce (s : ChoiceSpec) (v : PyVal) : Except PyErr PyVal :=
  s.dtype.coerce v

/-! ## `StringSpec` (parameter.py:339-381) -/

/-- The state of a constructed `StringSpec`: its dtype is always str; the
default is None or a coerced string; `_min_len` and `_max_len` are the
int-coerced bounds (`sys.maxsize`, 2^63 - 1, when no maximum is given). -/
structure StringSpec where
  name : String
  default : Option PyVal
  min_len : PyVal
  max_len : PyVal
deriving Repr

/-- `StringSpec.__init__` (parameter.py:343-355): run
`SimpleParameterSpec.__init__(name, default, str)`, coerce the length
bounds through int with defaults 0 and `sys.maxsize`, then reject
`min_len > max_len` and `min_len < 0`. -/
def StringSpec.init (name : String)
    (default min_len max_len : Option PyVal) : Except PyErr StringSpec := do
  let dflt ← simpleDefault ParameterDatatype.str default
  let lo ← ParameterDatatype.int.coerce_if_set min_len (.int 0)
  let hi ← ParameterDatatype.int.coerce_if_set max_len (.int (2 ^ 63 - 1))
  let gt ← pyGt lo hi
  if gt then throw (.valueError "Minimum string length longer than maximum")
  else do
    let neg ← pyLt lo (.int 0)
    if neg then throw (.valueError "Minimum string length must be at least 0")
    else pure ⟨name, dflt, lo, hi⟩

/-- `StringSpec.is_valid` (parameter.py:365-368):
`self.dtype.is_valid(value) and len(value) >= self.min_len and
len(value) <= self.max_len`, short-circuiting as Python does. -/
def StringSpec.is_valid (s : StringSpec) (v : PyVal) : Except PyErr Bool :=
  match v with
  | .str t => do
    let ge ← pyGe (.int t.length) s.min_len
    if !ge then pure false
    else do
      let le ← pyLe (.int t.length) s.max_len
      pure le
  | _ => .ok false

/-- `SimpleParameterSpec.coerce` for a `StringSpec`: through str. -/
def StringSpec.coerce (v : PyVal) : Except PyErr PyVal :=
  ParameterDatatype.str.coerce v

/-! ## `FixedSpec` (parameter.py:168-197) -/

/-- The state a `FixedSpec` would hold.  No value of this type is ever
produced by `FixedSpec.init`. -/
structure FixedSpec where
  name : String
  value : PyVal
deriving Repr

/-- `FixedSpec.__init__` (parameter.py:170-175).  `FixedSpec` subclasses
`object`, not `ParameterSpec`, so `super(FixedSpec, self).__init__(name)`
calls `object.__init__` with an extra argument and raises `TypeError`.
Were that call passed, the next line tests `if dtype is None` — inverted
from the evident intent — and for the default `dtype=None` runs
`ParameterDatatype(None)`, which raises `ValueError` (None is neither a
type nor a `TYPE_STR` key).  Construction therefore always raises. -/
def FixedSpec.init (name : String) (value : PyVal) (dtype : Option PyVal) :
    Except PyErr FixedSpec :=
  .error (.typeError "object.__init__() takes exactly one argument")

/-- `FixedSpec.coerce` (parameter.py:177-178): `type(self.value)(value)`. -/
def FixedSpec.coerce (s : FixedSpec) (v : PyVal) : Except PyErr PyVal :=
  pyTypeConvert s.value v

/-- `FixedSpec.is_valid` (parameter.py:180-181): `self.value == value`. -/
def FixedSpec.is_valid (s : FixedSpec) (v : PyVal) : Bool :=
  pyEqB s.value v

/-- `FixedSpec.choose` (parameter.py:187-188): the stored value. -/
def FixedSpec.choose (s : FixedSpec) (mapping : PyVal) : PyVal :=
  s.value

/-! ## `Spec`: the union of constructible spec kinds, and the spec parser -/

/-- A parsed parameter spec, as `parse_parameter_spec` returns it. -/
inductive Spec where
  | interval (s : IntervalSpec)
  | choice (s : ChoiceSpec)
  | strS (s : StringSpec)
  | fixed (s : FixedSpec)
deriving Repr

/-- The spec name. -/
def Spec.name : Spec → String
  | .interval s => s.name
  | .choice s => s.name
  | .strS s => s.name
  | .fixed s => s.name

/-- Per-kind `coerce`. -/
def Spec.coerce : Spec → PyVal → Except PyErr PyVal
  | .interval s, v => s.coerce v
  | .choice s, v => s.coerce v
  | .strS _, v => StringSpec.coerce v
  | .fixed s, v => s.coerce v

/-- Per-kind `is_valid`. -/
def Spec.is_valid : Spec → PyVal → Except PyErr Bool
  | .interval s, v => s.is_valid v
  | .choice s, v => .ok (s.is_valid v)
  | .strS s, v => s.is_valid v
  | .fixed s, v => .ok (s.is_valid v)

/-- Per-kind `choose`.  `StringSpec` does not override the base class
method, so choosing through it hits `ParameterSpec.choose`
(parameter.py:159-160), which raises `NotImplementedError`. -/
def Spec.choose : Spec → PyVal → Except PyErr PyVal
  | .interval s, v => s.choose v
  | .choice s, v => s.choose v
  | .strS _, _ => .error .notImplementedErr
  | .fixed s, v => .ok (s.choose v)

/-- A raw spec dictionary, as the callers of `parse_parameter_spec` supply
it: the keys the modelled branches read. -/
structure SpecDict where
  name : String
  type : String
  dtype : Option String
  min : Option PyVal
  max : Option PyVal
  default : Option PyVal
  choices : Option PyVal
  min_length : Option PyVal
  max_length : Option PyVal
  value : Option PyVal
deriving Repr

/-- `parse_parameter_spec` (parameter.py:53-89) for the interval, choice,
string and fixed branches.  The point2d and list branches
(parameter.py:66-85) are not modelled; the claims quantify over spec
dictionaries of the four modelled kinds.  A missing `choices` or `value`
key is the `KeyError` of the subscript in the source. -/
def parse_parameter_spec (idict : SpecDict) : Except PyErr Spec :=
  if idict.type = "number" ∨ idict.type = "interval" then
    (IntervalSpec.init idict.name (idict.dtype.getD "float")
      idict.min idict.max idict.default).map .interval
  else if idict.type = "choice" then
    match idict.choices with
    | some cs =>
      (ChoiceSpec.init idict.name cs (idict.dtype.getD "str") idict.default).map .choice
    | Option.none => .error (.keyError "choices")
  else if idict.type = "str" ∨ idict.type = "string" then
    (StringSpec.init idict.name idict.default idict.min_length idict.max_length).map .strS
  else if idict.type = "fixed" then
    match idict.value with
    | some v => (FixedSpec.init idict.name v Option.none).map .fixed
    | Option.none => .error (.keyError "value")
  else .error (.valueError "parameter type not recognized")

/-! ## `parse_parameters` (parameter.py:21-50) -/

/-- The caller's `parameters` dict: an association list with the dict
invariant of unique keys maintained by construction in Python. -/
abbrev Params := List (String × PyVal)

/-- Python `del parameters[name]`: every entry under the key goes (a dict
holds at most one). -/
def eraseKey (k : String) (ps : Params) : Params :=
  ps.filter (fun p => !(k == p.1))

/-- Python `parameters[name]` as an optional lookup. -/
def lookupKey (k : String) (ps : Params) : Option PyVal :=
  (ps.find? (fun p => p.1 == k)).map Prod.snd

/-- `paramset - param_specset` (parameter.py:22-27): the supplied parameter
names that no spec declares.  The source materializes frozensets; keys of a
dict are unique, so filtering the key list is the same set. -/
def extraNames (ps : Params) (specs : List SpecDict) : List String :=
  (ps.map Prod.fst).filter (fun n => !(specs.any (fun d => d.name == n)))

/-- The `for spec_raw in parameter_specs` loop of `parse_parameters`
(parameter.py:30-50), with the caller's `parameters` dict threaded
explicitly so that its mutation is part of the result.  Per spec: parse the
spec (its construction errors propagate), look the name up (a miss is the
KeyError turned into "parameter for ... is not specified"), delete it from
the caller's dict, coerce (TypeError/ValueError become "value ... does not
comply", anything else propagates raw), then test `is_valid` (False is
"value ... does not comply", a raising comparison propagates). -/
def parse_parameters_loop : List SpecDict → Params → Params → (Except PyErr Params) × Params
  | [], ps, acc => (.ok acc, ps)
  | d :: rest, ps, acc =>
    match parse_parameter_spec d with
    | .error e => (.error e, ps)
    | .ok spec =>
      match lookupKey spec.name ps with
      | Option.none => (.error (.missingParam spec.name), ps)
      | some value =>
        let ps1 := eraseKey spec.name ps
        match spec.coerce value with
        | .error (.typeError _) => (.error (.coercionFailure spec.name), ps1)
        | .error (.valueError _) => (.error (.coercionFailure spec.name), ps1)
        | .error e => (.error e, ps1)
        | .ok v2 =>
          match spec.is_valid v2 with
          | .error e => (.error e, ps1)
          | .ok true => parse_parameters_loop rest ps1 (acc ++ [(spec.name, v2)])
          | .ok false => (.error (.invalidValue spec.name), ps1)

/-- `parse_parameters` (parameter.py:21-50): the unknown-name precheck,
then the spec loop.  The first component is the returned `params` dict or
the raised error; the second is the caller's `parameters` dict as the call
leaves it. -/
def parse_parameters (parameters : Params) (parameter_specs : List SpecDict) :
    (Except PyErr Params) × Params :=
  let extra := extraNames parameters parameter_specs
  if extra.isEmpty then parse_parameters_loop parameter_specs parameters []
  else (.error (.unknownParams extra), parameters)

/-!
## The schema engine (Cardinality Counter and Value Chooser)

`orthogonal.py:20` imports `Chooser` from `.parameter` and drives it as
`chooser.num_parameters()` followed by `chooser.choose(sample)`
(orthogonal.py:47-52), but `parameter.py` defines no such class: the
schema-walking engine of spec sections 4.2 and 4.3 is code of this
repository that is not under `src/` (only its caller is).  Everything in
this section is therefore modelled from the spec.
-/

/-- Modelled from the spec: an extended real for decoded numerics — the
unbounded/unbounded decode maps `0.0` to negative infinity exactly, so the
decoded-number carrier needs the infinities alongside the reals. -/
inductive XReal where
  | fin (r : ℝ)
  | inf
  | ninf

/-- Modelled from the spec: a Decoded Value — "a plain value tree (scalar,
ordered list, or name-keyed mapping) mirroring the schema's shape". -/
inductive DecodedValue where
  | num (x : XReal)
  | str (s : String)
  | arr (xs : List DecodedValue)
  | obj (fields : List (String × DecodedValue))

/-- Modelled from the spec: a Schema Node — Object, Array (item type and
minimum item count), Enum (an ordered sequence of literal values, carried
nonempty: the decode selects index `⌊v·n⌋`, which presumes `n ≥ 1`, and
the source's `ChoiceSpec` likewise requires at least one choice),
Reference, Conjunction, and the number/integer/string primitives with
their optional bounds. -/
inductive Schema where
  | obj (props : List (String × Schema))
  | arr (item : Schema) (minItems : ℕ)
  | enum (first : DecodedValue) (rest : List DecodedValue)
  | ref (key : String)
  | allOf (branches : List Schema)
  | num (minimum maximum : Option ℚ)
  | intP (minimum maximum : Option ℚ)
  | strP (minLength maxLength : Option ℕ)

/-- Modelled from the spec: the Resolver — a lookup from reference key to
Schema Node, immutable after construction. -/
abbrev Resolver := List (String × Schema)

/-- Reference resolution through the Resolver. -/
def resolve (R : Resolver) (k : String) : Option Schema :=
  (R.find? (fun p => p.1 == k)).map Prod.snd

/-- Stable insertion of a named property into a name-sorted list. -/
def insertProp (p : String × Schema) : List (String × Schema) → List (String × Schema)
  | [] => [p]
  | q :: qs => if p.1 ≤ q.1 then p :: q :: qs else q :: insertProp p qs

/-- Modelled from the spec: Object decoding iterates properties "in
lexicographic name order"; this sorts a property list by name. -/
def sortProps : List (String × Schema) → List (String × Schema)
  | [] => []
  | p :: ps => insertProp p (sortProps ps)

/-- Modelled from the spec: the Number primitive decode.  Both bounds
finite: the linear map `x·(max−min)+min`.  Only a minimum: the exponential
right tail `−100·ln(1−x) + min`.  Only a maximum: the exponential left
tail `100·ln(1−x) + max`.  Neither: `0.0` maps to negative infinity
exactly, anything else to the sign-preserving double exponential
`sign(c)·100·ln(1 − 2·|c|)` with `c = x − 0.5`. -/
noncomputable def numberDecode (minimum maximum : Option ℚ) (x : ℚ) : XReal :=
  match minimum, maximum with
  | some a, some b => .fin ((x : ℝ) * ((b : ℝ) - (a : ℝ)) + (a : ℝ))
  | some a, Option.none => .fin (-100 * Real.log (1 - (x : ℝ)) + (a : ℝ))
  | Option.none, some b => .fin (100 * Real.log (1 - (x : ℝ)) + (b : ℝ))
  | Option.none, Option.none =>
    if x = 0 then .ninf
    else .fin (Real.sign ((x : ℝ) - 1/2) * 100 * Real.log (1 - 2 * |(x : ℝ) - 1/2|))

/-- Modelled from the spec: the Integer decode delegates to Number, "then
truncate toward zero to an integer"; the infinities pass through. -/
noncomputable def truncX : XReal → XReal
  | .fin r => .fin (((if 0 ≤ r then ⌊r⌋ else ⌈r⌉ : ℤ) : ℝ))
  | .inf => .inf
  | .ninf => .ninf

/-- The base-16 alphabet of the String decode. -/
def hexAlphabet : List Char := "0123456789abcdef".toList

/-- Modelled from the spec: the decoded string length,
`min(declared minLength defaulting to 10, declared maxLength defaulting to
+∞)`. -/
def stringLength (minLength maxLength : Option ℕ) : ℕ :=
  match maxLength with
  | Option.none => minLength.getD 10
  | some hi => min (minLength.getD 10) hi

/-- Modelled from the spec: the String primitive decode for a numeric
scalar — "treat the scalar as an index into the base-16 alphabet
`0123456789abcdef`, producing a fixed-length lowercase hexadecimal string";
"digits are generated least-significant-first then reversed".  (The
pass-through of a slot that already holds a string concerns heterogeneous
sample vectors and is outside this numeric-vector model.) -/
def stringChoose (minLength maxLength : Option ℕ) (x : ℚ) : String :=
  let L := stringLength minLength maxLength
  let k := (⌊x * (16 : ℚ) ^ L⌋).toNat
  String.mk (((List.range L).map (fun i => hexAlphabet.getD (k / 16 ^ i % 16) '0')).reverse)

/-- Modelled from the spec: the Conjunction merge — "merge resulting
mappings by last-branch-wins key overwrite": keys of the second mapping
shadow the first; a non-mapping result is replaced outright. -/
def overwriteFields (fa fb : List (String × DecodedValue)) : List (String × DecodedValue) :=
  fa.filter (fun p => !(fb.any (fun q => q.1 == p.1))) ++ fb

/-- Last-wins merge of two decoded values. -/
def mergeValues : DecodedValue → DecodedValue → DecodedValue
  | .obj fa, .obj fb => .obj (overwriteFields fa fb)
  | _, b => b

/-- Modelled from the spec: the Schema Cardinality Counter (spec 4.2) —
Object: the sum of child counts (order is irrelevant to a sum; the
name-sorted order aligns the recursion with the Chooser); Array: the item
count taken `minItems` times; Enum and the primitives: exactly 1;
Reference: resolve then recurse, failing on a dangling key; Conjunction:
the sum over the branches.  The fuel argument bounds reference-chain
depth; cyclic references are a spec non-goal, and exhausted fuel returns
`Option.none` exactly like a resolution failure. -/
def cardinality : ℕ → Resolver → Schema → Option ℕ
  | 0, _, _ => Option.none
  | f + 1, R, s =>
    match s with
    | .obj props =>
      match sortProps props with
      | [] => some 0
      | (_, c) :: ps => do
        let n1 ← cardinality f R c
        let n2 ← cardinality f R (.obj ps)
        pure (n1 + n2)
    | .arr item m =>
      match m with
      | 0 => some 0
      | m + 1 => do
        let n1 ← cardinality f R item
        let n2 ← cardinality f R (.arr item m)
        pure (n1 + n2)
    | .enum _ _ => some 1
    | .ref k =>
      match resolve R k with
      | some t => cardinality f R t
      | Option.none => Option.none
    | .allOf bs =>
      match bs with
      | [] => some 0
      | b :: rest => do
        let n1 ← cardinality f R b
        let n2 ← cardinality f R (.allOf rest)
        pure (n1 + n2)
    | .num _ _ => some 1
    | .intP _ _ => some 1
    | .strP _ _ => some 1

/-- Modelled from the spec: the Schema Value Chooser (spec 4.3), the
`decode(schema, sample_vector)` entry point.  The sample vector is
consumed from the front; the returned list is the unconsumed tail, so
consumption and the absence of out-of-range reads are part of the result.
Object: properties in lexicographic name order against the evolving
cursor; Array: exactly `minItems` items in sequence; Enum: the literal at
index `⌊v·n⌋`, one scalar; Reference: resolve then recurse; Conjunction:
branches in listed order, merged last-branch-wins; primitives: one scalar
through their decode.  The fuel mirrors `cardinality` exactly. -/
noncomputable def choose : ℕ → Resolver → Schema → List ℚ → Option (DecodedValue × List ℚ)
  | 0, _, _, _ => Option.none
  | f + 1, R, s, v =>
    match s with
    | .obj props =>
      match sortProps props with
      | [] => some (.obj [], v)
      | (nm, c) :: ps => do
        let (x, v1) ← choose f R c v
        let (rest, v2) ← choose f R (.obj ps) v1
        match rest with
        | .obj fs => some (.obj ((nm, x) :: fs), v2)
        | _ => Option.none
    | .arr item m =>
      match m with
      | 0 => some (.arr [], v)
      | m + 1 => do
        let (x, v1) ← choose f R item v
        let (rest, v2) ← choose f R (.arr item m) v1
        match rest with
        | .arr xs => some (.arr (x :: xs), v2)
        | _ => Option.none
    | .enum first restL =>
      match v with
      | [] => Option.none
      | x :: v1 =>
        match (first :: restL).get? (⌊x * ((first :: restL).length : ℚ)⌋).toNat with
        | some lit => some (lit, v1)
        | Option.none => Option.none
    | .ref k =>
      match resolve R k with
      | some t => choose f R t v
      | Option.none => Option.none
    | .allOf bs =>
      match bs with
      | [] => some (.obj [], v)
      | b :: rest => do
        let (x, v1) ← choose f R b v
        let (y, v2) ← choose f R (.allOf rest) v1
        some (mergeValues x y, v2)
    | .num mn mx =>
      match v with
      | [] => Option.none
      | x :: v1 => some (.num (numberDecode mn mx x), v1)
    | .intP mn mx =>
      match v with
      | [] => Option.none
      | x :: v1 => some (.num (truncX (numberDecode mn mx x)), v1)
    | .strP lo hi =>
      match v with
      | [] => Option.none
      | x :: v1 => some (.str (stringChoose lo hi x), v1)

/-!
## Claim theorems
-/

/-- Evaluation rule: monadic bind on an `Except.ok`. -/
@[simp] theorem exceptBind_ok {α β ε : Type} (a : α) (f : α → Except ε β) :
    (Except.ok a >>= f) = f a := rfl

/-- Evaluation rule: monadic bind on an `Except.error`. -/
@[simp] theorem exceptBind_err {α β ε : Type} (e : ε) (f : α → Except ε β) :
    ((Except.error e : Except ε α) >>= f) = Except.error e := rfl

/-- Evaluation rule: `Except.bind` on an `Except.ok`. -/
@[simp] theorem exceptBindF_ok {α β ε : Type} (a : α) (f : α → Except ε β) :
    Except.bind (Except.ok a) f = f a := rfl

/-- Evaluation rule: `Except.bind` on an `Except.error`. -/
@[simp] theorem exceptBindF_err {α β ε : Type} (e : ε) (f : α → Except ε β) :
    Except.bind (Except.error e : Except ε α) f = Except.error e := rfl

/-- Evaluation rule: `pure` in the `Except` monad. -/
@[simp] theorem exceptPure {α ε : Type} (a : α) :
    (pure a : Except ε α) = Except.ok a := rfl

/-- Evaluation rule: `throw` in the `Except` monad. -/
@[simp] theorem exceptThrow {α ε : Type} (e : ε) :
    (throw e : Except ε α) = Except.error e := rfl

/-- Evaluation rule: `Except.map` on an `Except.ok`. -/
@[simp] theorem exceptMap_ok {α β ε : Type} (g : α → β) (a : α) :
    (Except.ok a : Except ε α).map g = Except.ok (g a) := rfl

/-- Evaluation rule: `Except.map` on an `Except.error`. -/
@[simp] theorem exceptMap_err {α β ε : Type} (g : α → β) (e : ε) :
    (Except.error e : Except ε α).map g = Except.error e := rfl

/-- C4: the claim says an `IntervalSpec` with neither bound given maps the
scalar `0.0` to negative infinity exactly and any other scalar to the
symmetric double exponential.  That is what the dead branches at
parameter.py:313-323 would compute, but `__init__` stores the missing
bounds as the float infinities, never `None`, so `choose` always takes the
linear branch: `mapping * (inf - (-inf)) + (-inf)`, which is
`mapping * inf + (-inf)`, which is nan both at `0.0` (where `0.0 * inf` is
nan) and at any scalar in `(0, 1)` (where `inf + (-inf)` is nan).  This
theorem evaluates the modelled code at the failing inputs. -/
theorem C4_unbounded_interval_choose_is_nan :
    (IntervalSpec.init "a" "float" Option.none Option.none Option.none).bind
        (fun s => s.choose (.float (.fin 0))) = .ok (.float .nan)
  ∧ (IntervalSpec.init "a" "float" Option.none Option.none Option.none).bind
        (fun s => s.choose (.float (.fin (1/4)))) = .ok (.float .nan) := by
  refine ⟨rfl, ?_⟩
  norm_num [IntervalSpec.init, IntervalSpec.choose, IntervalSpec.is_valid,
    IntervalSpec.coerce, intervalDefault, ParameterDatatype.ofName,
    ParameterDatatype.coerce_if_set,
    ParameterDatatype.coerce, ParameterDatatype.is_valid, ParameterDatatype.convert,
    pyGt, pyLt, pyGe, pyLe, pyEqB, pyAdd, pySub, pyMul, pyDiv, PyVal.toPF, PyVal.toZ,
    PFloat.ltB, PFloat.leB, PFloat.eqB, PFloat.add, PFloat.sub, PFloat.mul,
    Except.bind]

/-- C7: the claim says `FixedSpec("k", 7)` validates exactly 7 and chooses
7.  That is the evident intent of the class (and of its `is_valid` and
`choose` bodies, evaluated here on the record the constructor was meant to
build), but the constructor itself always raises: `FixedSpec` subclasses
`object`, so `super().__init__(name)` is a `TypeError`, and the inverted
`if dtype is None` branch would run `ParameterDatatype(None)`, a
`ValueError`, even without it.  The `fixed` branch of
`parse_parameter_spec` raises identically. -/
theorem C7_fixedspec_construction_raises :
    FixedSpec.init "k" (.int 7) Option.none
        = .error (.typeError "object.__init__() takes exactly one argument")
  ∧ parse_parameter_spec
        ⟨"k", "fixed", Option.none, Option.none, Option.none, Option.none,
          Option.none, Option.none, Option.none, some (.int 7)⟩
        = .error (.typeError "object.__init__() takes exactly one argument")
  ∧ (FixedSpec.mk "k" (.int 7)).is_valid (.int 7) = true
  ∧ (FixedSpec.mk "k" (.int 7)).is_valid (.int 8) = false
  ∧ (FixedSpec.mk "k" (.int 7)).choose (.float (.fin (1/3))) = .int 7 :=
  ⟨rfl, rfl, rfl, rfl, rfl⟩

/-! ### No code path but the precheck produces the unknown-parameters error -/

/-- `ParameterDatatype.convert` never raises the unknown-parameters error. -/
theorem convert_no_unknown (d : ParameterDatatype) (v : PyVal) (es : List String) :
    d.convert v ≠ .error (.unknownParams es) := by
  cases d <;> cases v <;>
    simp only [ParameterDatatype.convert] <;>
    (repeat' split) <;> simp

/-- `ParameterDatatype.coerce` never raises the unknown-parameters error. -/
theorem coerce_no_unknown (d : ParameterDatatype) (v : PyVal) (es : List String) :
    d.coerce v ≠ .error (.unknownParams es) := by
  unfold ParameterDatatype.coerce
  split
  · simp
  · split
    · simp
    · exact convert_no_unknown d v es

/-- Bind preserves not-raising-the-unknown-parameters-error. -/
theorem no_unknown_bind {α β : Type} {x : Except PyErr α} {f : α → Except PyErr β}
    {es : List String}
    (hx : x ≠ .error (.unknownParams es)) (hf : ∀ a, f a ≠ .error (.unknownParams es)) :
    (x >>= f) ≠ .error (.unknownParams es) := by
  cases x with
  | ok a => simpa using hf a
  | error e => simpa using hx

/-- Map preserves not-raising-the-unknown-parameters-error. -/
theorem no_unknown_map {α β : Type} {x : Except PyErr α} {g : α → β} {es : List String}
    (hx : x ≠ .error (.unknownParams es)) :
    x.map g ≠ .error (.unknownParams es) := by
  cases x with
  | ok a => simp
  | error e => simpa using hx

/-- `ParameterDatatype.ofName` never raises the unknown-parameters error. -/
theorem ofName_no_unknown (s : String) (es : List String) :
    ParameterDatatype.ofName s ≠ .error (.unknownParams es) := by
  unfold ParameterDatatype.ofName
  (repeat' split) <;> simp

/-- `coerce_if_set` never raises the unknown-parameters error. -/
theorem coerce_if_set_no_unknown (d : ParameterDatatype) (v : Option PyVal)
    (dflt : PyVal) (es : List String) :
    d.coerce_if_set v dflt ≠ .error (.unknownParams es) := by
  cases v with
  | none => simp [ParameterDatatype.coerce_if_set]
  | some w =>
    simpa [ParameterDatatype.coerce_if_set] using coerce_no_unknown d w es

/-- `pyLe` never raises the unknown-parameters error. -/
theorem pyLe_no_unknown (a b : PyVal) (es : List String) :
    pyLe a b ≠ .error (.unknownParams es) := by
  unfold pyLe
  (repeat' split) <;> simp

/-- `pyLt` never raises the unknown-parameters error. -/
theorem pyLt_no_unknown (a b : PyVal) (es : List String) :
    pyLt a b ≠ .error (.unknownParams es) := by
  unfold pyLt
  (repeat' split) <;> simp

/-- `pyGe` never raises the unknown-parameters error. -/
theorem pyGe_no_unknown (a b : PyVal) (es : List String) :
    pyGe a b ≠ .error (.unknownParams es) := pyLe_no_unknown b a es

/-- `pyGt` never raises the unknown-parameters error. -/
theorem pyGt_no_unknown (a b : PyVal) (es : List String) :
    pyGt a b ≠ .error (.unknownParams es) := pyLt_no_unknown b a es

/-- `pyAdd` never raises the unknown-parameters error. -/
theorem pyAdd_no_unknown (a b : PyVal) (es : List String) :
    pyAdd a b ≠ .error (.unknownParams es) := by
  unfold pyAdd
  (repeat' split) <;> simp

/-- `pySub` never raises the unknown-parameters error. -/
theorem pySub_no_unknown (a b : PyVal) (es : List String) :
    pySub a b ≠ .error (.unknownParams es) := by
  unfold pySub
  (repeat' split) <;> simp

/-- `pyMul` never raises the unknown-parameters error. -/
theorem pyMul_no_unknown (a b : PyVal) (es : List String) :
    pyMul a b ≠ .error (.unknownParams es) := by
  unfold pyMul
  (repeat' split) <;> simp

/-- `pyDiv` never raises the unknown-parameters error. -/
theorem pyDiv_no_unknown (a b : PyVal) (es : List String) :
    pyDiv a b ≠ .error (.unknownParams es) := by
  unfold pyDiv
  (repeat' split) <;> simp

/-- `pyTypeConvert` never raises the unknown-parameters error. -/
theorem pyTypeConvert_no_unknown (a b : PyVal) (es : List String) :
    pyTypeConvert a b ≠ .error (.unknownParams es) := by
  cases a <;> simp only [pyTypeConvert] <;>
    first
      | exact convert_no_unknown _ b es
      | simp

/-- `IntervalSpec.is_valid` never raises the unknown-parameters error. -/
theorem intervalIsValid_no_unknown (s : IntervalSpec) (v : PyVal) (es : List String) :
    s.is_valid v ≠ .error (.unknownParams es) := by
  unfold IntervalSpec.is_valid
  apply no_unknown_bind (pyGe_no_unknown v s.min es)
  intro ge
  split
  · simp
  · apply no_unknown_bind (pyLe_no_unknown v s.max es)
    intro le
    split <;> simp

/-- `intervalDefault` never raises the unknown-parameters error. -/
theorem intervalDefault_no_unknown (mn mx : PyVal) (default : Option PyVal)
    (es : List String) :
    intervalDefault mn mx default ≠ .error (.unknownParams es) := by
  unfold intervalDefault
  split
  · simp
  · split
    · simp
    · split
      · simp
      · apply no_unknown_bind (pyAdd_no_unknown mn mx es)
        intro sum
        exact pyDiv_no_unknown sum (.int 2) es

/-- `simpleDefault` never raises the unknown-parameters error. -/
theorem simpleDefault_no_unknown (d : ParameterDatatype) (default : Option PyVal)
    (es : List String) :
    simpleDefault d default ≠ .error (.unknownParams es) := by
  unfold simpleDefault
  split
  · simp
  · exact no_unknown_map (coerce_no_unknown d _ es)

/-- `IntervalSpec.init` never raises the unknown-parameters error. -/
theorem intervalInit_no_unknown (name dtypeName : String)
    (min_value max_value default : Option PyVal) (es : List String) :
    IntervalSpec.init name dtypeName min_value max_value default
      ≠ .error (.unknownParams es) := by
  unfold IntervalSpec.init
  apply no_unknown_bind (ofName_no_unknown dtypeName es)
  intro d
  apply no_unknown_bind (coerce_if_set_no_unknown d min_value _ es)
  intro mn
  apply no_unknown_bind (coerce_if_set_no_unknown d max_value _ es)
  intro mx
  apply no_unknown_bind (pyGt_no_unknown mn mx es)
  intro gt
  split
  · simp
  · apply no_unknown_bind (intervalDefault_no_unknown mn mx default es)
    intro dflt
    apply no_unknown_bind (coerce_no_unknown d dflt es)
    intro dflt2
    apply no_unknown_bind (intervalIsValid_no_unknown _ dflt2 es)
    intro ok
    split <;> simp

/-- `mapM` of a coercion never raises the unknown-parameters error. -/
theorem mapM_coerce_no_unknown (d : ParameterDatatype) (l : List PyVal) (es : List String) :
    l.mapM d.coerce ≠ .error (.unknownParams es) := by
  induction l with
  | nil => simp [List.mapM, List.mapM.loop]
  | cons x xs ih =>
    rw [List.mapM_cons]
    apply no_unknown_bind (coerce_no_unknown d x es)
    intro a
    apply no_unknown_bind ih
    intro as
    simp

/-- `ChoiceSpec.init` never raises the unknown-parameters error. -/
theorem choiceInit_no_unknown (name : String) (choicesArg : PyVal) (dtypeName : String)
    (default : Option PyVal) (es : List String) :
    ChoiceSpec.init name choicesArg dtypeName default ≠ .error (.unknownParams es) := by
  unfold ChoiceSpec.init
  split
  · split
    · simp
    · apply no_unknown_bind (ofName_no_unknown dtypeName es)
      intro d
      apply no_unknown_bind (coerce_no_unknown d _ es)
      intro dflt
      apply no_unknown_bind (mapM_coerce_no_unknown d _ es)
      intro coerced
      simp
  · simp

/-- `StringSpec.init` never raises the unknown-parameters error. -/
theorem stringInit_no_unknown (name : String) (default min_len max_len : Option PyVal)
    (es : List String) :
    StringSpec.init name default min_len max_len ≠ .error (.unknownParams es) := by
  unfold StringSpec.init
  apply no_unknown_bind (simpleDefault_no_unknown ParameterDatatype.str default es)
  intro dflt
  apply no_unknown_bind (coerce_if_set_no_unknown ParameterDatatype.int min_len _ es)
  intro lo
  apply no_unknown_bind (coerce_if_set_no_unknown ParameterDatatype.int max_len _ es)
  intro hi
  apply no_unknown_bind (pyGt_no_unknown lo hi es)
  intro gt
  split
  · simp
  · apply no_unknown_bind (pyLt_no_unknown lo (.int 0) es)
    intro neg
    split <;> simp

/-- `parse_parameter_spec` never raises the unknown-parameters error. -/
theorem parse_parameter_spec_no_unknown (d : SpecDict) (es : List String) :
    parse_parameter_spec d ≠ .error (.unknownParams es) := by
  unfold parse_parameter_spec
  split
  · exact no_unknown_map (intervalInit_no_unknown _ _ _ _ _ es)
  · split
    · split
      · exact no_unknown_map (choiceInit_no_unknown _ _ _ _ es)
      · simp
    · split
      · exact no_unknown_map (stringInit_no_unknown _ _ _ _ es)
      · split
        · split <;> simp [FixedSpec.init]
        · simp

/-- `Spec.coerce` never raises the unknown-parameters error. -/
theorem specCoerce_no_unknown (s : Spec) (v : PyVal) (es : List String) :
    s.coerce v ≠ .error (.unknownParams es) := by
  cases s with
  | interval s => exact coerce_no_unknown s.dtype v es
  | choice s => exact coerce_no_unknown s.dtype v es
  | strS s => exact coerce_no_unknown ParameterDatatype.str v es
  | fixed s => exact pyTypeConvert_no_unknown s.value v es

/-- `StringSpec.is_valid` never raises the unknown-parameters error. -/
theorem stringIsValid_no_unknown (s : StringSpec) (v : PyVal) (es : List String) :
    s.is_valid v ≠ .error (.unknownParams es) := by
  unfold StringSpec.is_valid
  split
  · apply no_unknown_bind (pyGe_no_unknown _ s.min_len es)
    intro ge
    split
    · simp
    · apply no_unknown_bind (pyLe_no_unknown _ s.max_len es)
      intro le
      simp
  · simp

/-- `Spec.is_valid` never raises the unknown-parameters error. -/
theorem specIsValid_no_unknown (s : Spec) (v : PyVal) (es : List String) :
    s.is_valid v ≠ .error (.unknownParams es) := by
  cases s with
  | interval s => exact intervalIsValid_no_unknown s v es
  | choice s => simp [Spec.is_valid]
  | strS s => exact stringIsValid_no_unknown s v es
  | fixed s => simp [Spec.is_valid]

/-- The spec loop of `parse_parameters` never raises the
unknown-parameters error: that error is the precheck's alone. -/
theorem parse_parameters_loop_no_unknown (specs : List SpecDict) (ps acc : Params)
    (es : List String) :
    (parse_parameters_loop specs ps acc).1 ≠ .error (.unknownParams es) := by
  induction specs generalizing ps acc with
  | nil => simp [parse_parameters_loop]
  | cons d rest ih =>
    unfold parse_parameters_loop
    split
    · next e heq =>
      intro hc
      simp only at hc
      injection hc with h
      exact parse_parameter_spec_no_unknown d es (h ▸ heq)
    · next spec heq =>
      split
      · simp
      · next value hlook =>
        split
        · simp
        · simp
        · next e h1 h2 heq2 =>
          intro hc
          simp only at hc
          injection hc with h
          exact specCoerce_no_unknown spec value es (h ▸ heq2)
        · next v2 heq2 =>
          split
          · next e heq3 =>
            intro hc
            simp only at hc
            injection hc with h
            exact specIsValid_no_unknown spec v2 es (h ▸ heq3)
          · exact ih _ _
          · simp

/-! ### Inversion helpers for successful `Except` chains -/

/-- Inverting a successful bind. -/
theorem bindE_eq_ok {α β ε : Type} {x : Except ε α} {f : α → Except ε β} {b : β} :
    (x >>= f) = .ok b ↔ ∃ a, x = .ok a ∧ f a = .ok b := by
  cases x <;> simp

/-- Inverting a successful map. -/
theorem mapE_eq_ok {α β ε : Type} {x : Except ε α} {g : α → β} {b : β} :
    x.map g = .ok b ↔ ∃ a, x = .ok a ∧ g a = b := by
  cases x <;> simp [Except.map]

/-- A constructed `IntervalSpec` carries the requested name. -/
theorem intervalInit_name {name dtypeName : String}
    {min_value max_value default : Option PyVal} {s : IntervalSpec}
    (h : IntervalSpec.init name dtypeName min_value max_value default = .ok s) :
    s.name = name := by
  unfold IntervalSpec.init at h
  rw [bindE_eq_ok] at h; obtain ⟨d, -, h⟩ := h
  rw [bindE_eq_ok] at h; obtain ⟨mn, -, h⟩ := h
  rw [bindE_eq_ok] at h; obtain ⟨mx, -, h⟩ := h
  rw [bindE_eq_ok] at h; obtain ⟨gt, -, h⟩ := h
  split at h
  · simp at h
  · rw [bindE_eq_ok] at h; obtain ⟨dflt, -, h⟩ := h
    rw [bindE_eq_ok] at h; obtain ⟨dflt2, -, h⟩ := h
    rw [bindE_eq_ok] at h; obtain ⟨ok, -, h⟩ := h
    split at h
    · rw [exceptPure] at h
      injection h with h2
      rw [← h2]
    · simp at h

/-- A constructed `ChoiceSpec` carries the requested name. -/
theorem choiceInit_name {name : String} {choicesArg : PyVal} {dtypeName : String}
    {default : Option PyVal} {s : ChoiceSpec}
    (h : ChoiceSpec.init name choicesArg dtypeName default = .ok s) :
    s.name = name := by
  unfold ChoiceSpec.init at h
  split at h
  · split at h
    · simp at h
    · rw [bindE_eq_ok] at h; obtain ⟨d, -, h⟩ := h
      rw [bindE_eq_ok] at h; obtain ⟨dflt, -, h⟩ := h
      rw [bindE_eq_ok] at h; obtain ⟨coerced, -, h⟩ := h
      rw [exceptPure] at h
      injection h with h2
      rw [← h2]
  · simp at h

/-- A constructed `StringSpec` carries the requested name. -/
theorem stringInit_name {name : String} {default min_len max_len : Option PyVal}
    {s : StringSpec}
    (h : StringSpec.init name default min_len max_len = .ok s) :
    s.name = name := by
  unfold StringSpec.init at h
  rw [bindE_eq_ok] at h; obtain ⟨dflt, -, h⟩ := h
  rw [bindE_eq_ok] at h; obtain ⟨lo, -, h⟩ := h
  rw [bindE_eq_ok] at h; obtain ⟨hi, -, h⟩ := h
  rw [bindE_eq_ok] at h; obtain ⟨gt, -, h⟩ := h
  split at h
  · simp at h
  · rw [bindE_eq_ok] at h; obtain ⟨neg, -, h⟩ := h
    split at h
    · simp at h
    · rw [exceptPure] at h
      injection h with h2
      rw [← h2]

/-- A parsed spec carries the name of its spec dictionary. -/
theorem parse_parameter_spec_name {d : SpecDict} {spec : Spec}
    (h : parse_parameter_spec d = .ok spec) : spec.name = d.name := by
  unfold parse_parameter_spec at h
  split at h
  · rw [mapE_eq_ok] at h; obtain ⟨s, hs, rfl⟩ := h
    simpa [Spec.name] using intervalInit_name hs
  · split at h
    · split at h
      · rw [mapE_eq_ok] at h; obtain ⟨s, hs, rfl⟩ := h
        simpa [Spec.name] using choiceInit_name hs
      · simp at h
    · split at h
      · rw [mapE_eq_ok] at h; obtain ⟨s, hs, rfl⟩ := h
        simpa [Spec.name] using stringInit_name hs
      · split at h
        · split at h
          · rw [mapE_eq_ok] at h; obtain ⟨s, hs, rfl⟩ := h
            simp [FixedSpec.init] at hs
          · simp at h
        · simp at h

/-- The spec loop leaves the caller's dict a sublist of what it was: it
only ever deletes entries. -/
theorem parse_parameters_loop_sublist (specs : List SpecDict) (ps acc : Params) :
    (parse_parameters_loop specs ps acc).2.Sublist ps := by
  induction specs generalizing ps acc with
  | nil => simp [parse_parameters_loop]
  | cons d rest ih =>
    unfold parse_parameters_loop
    split
    · exact List.Sublist.refl ps
    · split
      · exact List.Sublist.refl ps
      · split
        · exact List.filter_sublist ps
        · exact List.filter_sublist ps
        · exact List.filter_sublist ps
        · split
          · exact List.filter_sublist ps
          · exact (ih _ _).trans (List.filter_sublist ps)
          · exact List.filter_sublist ps

/-- When the spec loop returns successfully, the caller's dict has lost
exactly the entries whose keys some processed spec declared. -/
theorem parse_parameters_loop_ok_state {specs : List SpecDict} {ps acc out st : Params}
    (h : parse_parameters_loop specs ps acc = (.ok out, st)) :
    st = ps.filter (fun p => !(specs.any (fun d => d.name == p.1))) := by
  induction specs generalizing ps acc out st with
  | nil =>
    simp only [parse_parameters_loop, Prod.mk.injEq] at h
    simp [← h.2]
  | cons d rest ih =>
    unfold parse_parameters_loop at h
    split at h
    · simp at h
    · next spec hspec =>
      split at h
      · simp at h
      · next value hlook =>
        split at h
        · simp at h
        · simp at h
        · simp at h
        · next v2 heq2 =>
          split at h
          · simp at h
          · have hst := ih h
            have hname : spec.name = d.name := parse_parameter_spec_name hspec
            rw [hst, hname]
            unfold eraseKey
            rw [List.filter_filter]
            apply List.filter_congr
            intro p _
            simp [Bool.not_or, Bool.and_comm]
          · simp at h

/-- The spec dictionary `{"name": "a", "type": "number"}`: an unbounded
float interval. -/
def numberDictA : SpecDict :=
  ⟨"a", "number", Option.none, Option.none, Option.none, Option.none, Option.none,
    Option.none, Option.none, Option.none⟩

/-- C9: a supplied parameter name no spec declares makes `parse_parameters`
raise the unknown-parameter ValueError carrying exactly the undeclared
names, with the caller's mapping untouched; when the supplied names are a
subset of the declared ones the name-subset check passes and no later
stage of the call can raise that error. -/
theorem C9_unknown_name_rejection (ps : Params) (specs : List SpecDict) :
    (extraNames ps specs ≠ [] →
      parse_parameters ps specs = (.error (.unknownParams (extraNames ps specs)), ps))
  ∧ (extraNames ps specs = [] →
      ∀ es, (parse_parameters ps specs).1 ≠ .error (.unknownParams es)) := by
  constructor
  · intro h
    have hne : (extraNames ps specs).isEmpty = false := by
      cases hE : extraNames ps specs with
      | nil => exact absurd hE h
      | cons a as => rfl
    simp [parse_parameters, hne]
  · intro h es
    have hE : (extraNames ps specs).isEmpty = true := by simp [h]
    simp only [parse_parameters, hE, if_true]
    exact parse_parameters_loop_no_unknown specs ps [] es

/-- Witness for C9 at the spec example: `{"a": 1, "z": 2}` against a spec
set declaring only `a` raises the unknown-parameter error naming `z`. -/
theorem C9_witness :
    parse_parameters [("a", PyVal.int 1), ("z", PyVal.int 2)] [numberDictA]
      = (.error (.unknownParams ["z"]), [("a", PyVal.int 1), ("z", PyVal.int 2)])
  ∧ "z" ∈ ["z"] := by
  have hE : extraNames [("a", PyVal.int 1), ("z", PyVal.int 2)] [numberDictA] = ["z"] := by
    decide
  refine ⟨?_, by simp⟩
  have h := (C9_unknown_name_rejection [("a", PyVal.int 1), ("z", PyVal.int 2)]
    [numberDictA]).1
  rw [hE] at h
  exact h (by simp)

/-- C8 counterexample: the claim says a failing validation leaves the
caller's inputs unchanged, but `parse_parameters` deletes each parameter
from the caller's dict before coercing it: coercing `"bla"` for a number
spec raises, and the caller's mapping has already lost the entry. -/
theorem C8_counterexample :
    (parse_parameters [("a", PyVal.str "bla")] [numberDictA]).1
        = .error (.coercionFailure "a")
  ∧ (parse_parameters [("a", PyVal.str "bla")] [numberDictA]).2 = [] :=
  ⟨rfl, rfl⟩

/-- C8 as amended: only the unknown-name precheck leaves the caller's
mapping unchanged on error; the spec loop may delete entries before an
error propagates, and what remains is always a sublist of the original
mapping (entries are only ever deleted, never altered or added). -/
theorem C8_mutation_amended (ps : Params) (specs : List SpecDict) :
    (extraNames ps specs ≠ [] → (parse_parameters ps specs).2 = ps)
  ∧ ((parse_parameters ps specs).2).Sublist ps := by
  constructor
  · intro h
    have hne : (extraNames ps specs).isEmpty = false := by
      cases hE : extraNames ps specs with
      | nil => exact absurd hE h
      | cons a as => rfl
    simp [parse_parameters, hne]
  · simp only [parse_parameters]
    split
    · exact parse_parameters_loop_sublist specs ps []
    · exact List.Sublist.refl ps

/-- Witness for C8 as amended: an unknown-name failure leaves the mapping
exactly as it was. -/
theorem C8_witness :
    (parse_parameters [("z", PyVal.int 1)] []).2 = [("z", PyVal.int 1)] :=
  (C8_mutation_amended [("z", PyVal.int 1)] []).1 (by decide)

/-- C10 counterexample: with an empty spec set and an empty mapping the
call succeeds, and the second identical call succeeds as well instead of
failing with a missing-parameter error. -/
theorem C10_counterexample :
    (parse_parameters [] []).1 = .ok []
  ∧ (parse_parameters ((parse_parameters [] []).2) []).1 = .ok [] :=
  ⟨rfl, rfl⟩

/-- C10 as amended: a successful `parse_parameters` has deleted every
declared name from the caller's mapping, and the name-subset precheck
makes the supplied names a subset of the declared ones, so the mapping is
empty afterwards; when the spec set is nonempty, running the same call on
the emptied mapping fails with the missing-parameter error. -/
theorem C10_success_empties_mapping (ps : Params) (specs : List SpecDict) (out : Params)
    (h : (parse_parameters ps specs).1 = .ok out) :
    (parse_parameters ps specs).2 = []
  ∧ (specs ≠ [] → ∃ nm,
      (parse_parameters ((parse_parameters ps specs).2) specs).1
        = .error (.missingParam nm)) := by
  by_cases hE : (extraNames ps specs).isEmpty = true
  · have hloop1 : parse_parameters ps specs = parse_parameters_loop specs ps [] := by
      simp [parse_parameters, hE]
    rw [hloop1] at h ⊢
    have hpair : parse_parameters_loop specs ps []
        = (.ok out, (parse_parameters_loop specs ps []).2) := by
      rw [Prod.ext_iff]
      exact ⟨h, rfl⟩
    have hst := parse_parameters_loop_ok_state hpair
    have hsub : ∀ n ∈ ps.map Prod.fst, (specs.any (fun d => d.name == n)) = true := by
      intro n hn
      have hnil : extraNames ps specs = [] := by
        cases hEE : extraNames ps specs with
        | nil => rfl
        | cons a as => rw [hEE] at hE; simp at hE
      have := List.filter_eq_nil.mp hnil n hn
      simpa using this
    have hempty : (parse_parameters_loop specs ps []).2 = [] := by
      rw [hst]
      rw [List.filter_eq_nil]
      intro p hp
      have := hsub p.1 (List.mem_map_of_mem Prod.fst hp)
      simp [this]
    refine ⟨hempty, ?_⟩
    intro hne
    cases specs with
    | nil => exact absurd rfl hne
    | cons d rest =>
      have hdok : ∃ spec, parse_parameter_spec d = .ok spec := by
        unfold parse_parameters_loop at h
        split at h
        · simp at h
        · next spec hspec => exact ⟨spec, hspec⟩
      obtain ⟨spec, hspec⟩ := hdok
      refine ⟨spec.name, ?_⟩
      rw [hempty]
      have hEx : extraNames [] (d :: rest) = [] := by simp [extraNames]
      simp only [parse_parameters, hEx, List.isEmpty_nil, if_true]
      unfold parse_parameters_loop
      rw [hspec]
      simp [lookupKey]
  · exfalso
    have hne : (extraNames ps specs).isEmpty = false := by
      cases hEE : (extraNames ps specs).isEmpty
      · rfl
      · exact absurd hEE hE
    simp [parse_parameters, hne] at h

/-- Witness for C10 as amended: a one-parameter success empties the
mapping, and rerunning the call on the emptied mapping reports the
parameter as missing. -/
theorem C10_witness :
    (parse_parameters [("a", PyVal.float (PFloat.fin 1))] [numberDictA]).2 = []
  ∧ ∃ nm,
      (parse_parameters
          ((parse_parameters [("a", PyVal.float (PFloat.fin 1))] [numberDictA]).2)
          [numberDictA]).1
        = .error (.missingParam nm) := by
  have h := C10_success_empties_mapping [("a", PyVal.float (PFloat.fin 1))] [numberDictA]
    [("a", PyVal.float (PFloat.fin 1))] rfl
  exact ⟨h.1, h.2 (by simp)⟩

/-! ### Inverting successful interval and choice construction -/

/-- What a successful `IntervalSpec.init` pins down: the parsed dtype, the
stored bounds (the results of `coerce_if_set`), a failed `_min > _max`
test, and the shape of the record. -/
theorem intervalInit_inversion {name dtypeName : String}
    {min_value max_value default : Option PyVal} {s : IntervalSpec}
    (h : IntervalSpec.init name dtypeName min_value max_value default = .ok s) :
    ∃ d mnv mxv dflt2,
      ParameterDatatype.ofName dtypeName = .ok d
      ∧ d.coerce_if_set min_value (.float .ninf) = .ok mnv
      ∧ d.coerce_if_set max_value (.float .inf) = .ok mxv
      ∧ pyGt mnv mxv = .ok false
      ∧ s = ⟨name, d, mnv, mxv, dflt2⟩ := by
  unfold IntervalSpec.init at h
  rw [bindE_eq_ok] at h; obtain ⟨d, hd, h⟩ := h
  rw [bindE_eq_ok] at h; obtain ⟨mnv, hmn, h⟩ := h
  rw [bindE_eq_ok] at h; obtain ⟨mxv, hmx, h⟩ := h
  rw [bindE_eq_ok] at h; obtain ⟨gt, hgt, h⟩ := h
  split at h
  · simp at h
  · next hgtf =>
    rw [bindE_eq_ok] at h; obtain ⟨dflt, -, h⟩ := h
    rw [bindE_eq_ok] at h; obtain ⟨dflt2, -, h⟩ := h
    rw [bindE_eq_ok] at h; obtain ⟨ok, -, h⟩ := h
    split at h
    · rw [exceptPure] at h
      injection h with h2
      refine ⟨d, mnv, mxv, dflt2, hd, hmn, hmx, ?_, h2.symm⟩
      rwa [Bool.eq_false_iff.mpr hgtf] at hgt
    · simp at h

/-- Coercion through the float dtype passes a float through unchanged. -/
theorem coerce_float_float (x : PFloat) :
    ParameterDatatype.float.coerce (.float x) = .ok (.float x) := rfl

/-- A value a dtype coercion returns is of that dtype. -/
theorem coerce_is_valid {d : ParameterDatatype} {v w : PyVal}
    (h : d.coerce v = .ok w) : d.is_valid w = true := by
  unfold ParameterDatatype.coerce at h
  split at h
  · next hv =>
    injection h with h2
    rwa [← h2]
  · split at h
    · injection h with h2
      rw [← h2]
      rfl
    · cases d <;> cases v <;>
        simp only [ParameterDatatype.convert] at h <;>
        (repeat' split at h) <;>
          first
            | (injection h with h2; rw [← h2]; rfl)
            | exact absurd h (by simp)

/-! ### The sort and the coerced choice list -/

/-- Insertion preserves length. -/
theorem length_pyInsert (p : PyVal) (l : List PyVal) :
    (pyInsert p l).length = l.length + 1 := by
  induction l with
  | nil => rfl
  | cons q qs ih =>
    unfold pyInsert
    split
    · rfl
    · simp [ih]

/-- Sorting preserves length. -/
theorem length_pySort (l : List PyVal) : (pySort l).length = l.length := by
  induction l with
  | nil => rfl
  | cons p ps ih => simp [pySort, length_pyInsert, ih]

/-- Insertion membership. -/
theorem mem_pyInsert {a p : PyVal} {l : List PyVal} :
    a ∈ pyInsert p l ↔ a = p ∨ a ∈ l := by
  induction l with
  | nil => simp [pyInsert]
  | cons q qs ih =>
    unfold pyInsert
    split
    · simp
    · simp [ih]
      tauto

/-- Sort membership. -/
theorem mem_pySort {a : PyVal} {l : List PyVal} : a ∈ pySort l ↔ a ∈ l := by
  induction l with
  | nil => simp [pySort]
  | cons p ps ih => simp [pySort, mem_pyInsert, ih]

/-- A successful `mapM` preserves length. -/
theorem mapM_ok_length {d : ParameterDatatype} {l l2 : List PyVal}
    (h : l.mapM d.coerce = .ok l2) : l2.length = l.length := by
  induction l generalizing l2 with
  | nil =>
    simp [List.mapM, List.mapM.loop] at h
    simp [← h]
  | cons x xs ih =>
    rw [List.mapM_cons] at h
    rw [bindE_eq_ok] at h; obtain ⟨w, -, h⟩ := h
    rw [bindE_eq_ok] at h; obtain ⟨ws, hws, h⟩ := h
    rw [exceptPure] at h
    injection h with h2
    rw [← h2]
    simp [ih hws]

/-- Every element of a successful `mapM` image is a coercion image. -/
theorem mapM_ok_mem {d : ParameterDatatype} {l l2 : List PyVal} {w : PyVal}
    (h : l.mapM d.coerce = .ok l2) (hw : w ∈ l2) : ∃ a ∈ l, d.coerce a = .ok w := by
  induction l generalizing l2 with
  | nil =>
    simp [List.mapM, List.mapM.loop] at h
    rw [h] at hw
    simp at hw
  | cons x xs ih =>
    rw [List.mapM_cons] at h
    rw [bindE_eq_ok] at h; obtain ⟨y, hy, h⟩ := h
    rw [bindE_eq_ok] at h; obtain ⟨ys, hys, h⟩ := h
    rw [exceptPure] at h
    injection h with h2
    rw [← h2, List.mem_cons] at hw
    rcases hw with rfl | hw
    · exact ⟨x, by simp, hy⟩
    · obtain ⟨a, ha, hcoe⟩ := ih hys hw
      exact ⟨a, by simp [ha], hcoe⟩

/-- What a successful `ChoiceSpec.init` pins down: the original list, its
nonemptiness, the parsed dtype, the coerced list and the record shape. -/
theorem choiceInit_inversion {name : String} {choicesArg : PyVal} {dtypeName : String}
    {default : Option PyVal} {s : ChoiceSpec}
    (h : ChoiceSpec.init name choicesArg dtypeName default = .ok s) :
    ∃ d choices dflt coerced,
      choicesArg = .list choices
      ∧ choices ≠ []
      ∧ ParameterDatatype.ofName dtypeName = .ok d
      ∧ choices.mapM d.coerce = .ok coerced
      ∧ s = ⟨name, d, dflt, pySort coerced⟩ := by
  unfold ChoiceSpec.init at h
  split at h
  · next choices =>
    split at h
    · simp at h
    · next hne =>
      rw [bindE_eq_ok] at h; obtain ⟨d, hd, h⟩ := h
      rw [bindE_eq_ok] at h; obtain ⟨dflt, -, h⟩ := h
      rw [bindE_eq_ok] at h; obtain ⟨coerced, hco, h⟩ := h
      rw [exceptPure] at h
      injection h with h2
      exact ⟨d, choices, dflt, coerced, rfl, by simpa using hne, hd, hco, h2.symm⟩
  · simp at h

/-- The choice list of a constructed `ChoiceSpec` is nonempty and holds
only values of its dtype. -/
theorem choiceSpec_choices_valid {name : String} {choicesArg : PyVal} {dtypeName : String}
    {default : Option PyVal} {s : ChoiceSpec}
    (h : ChoiceSpec.init name choicesArg dtypeName default = .ok s) :
    s.choices ≠ [] ∧ ∀ w ∈ s.choices, s.dtype.is_valid w = true := by
  obtain ⟨d, choices, dflt, coerced, -, hne, -, hco, hs⟩ := choiceInit_inversion h
  subst hs
  constructor
  · intro hnil
    have hnil2 : pySort coerced = [] := hnil
    have h1 : (pySort coerced).length = 0 := by rw [hnil2]; rfl
    rw [length_pySort, mapM_ok_length hco] at h1
    exact hne (List.length_eq_zero.mp h1)
  · intro w hw
    have hw1 : w ∈ pySort coerced := hw
    have hw2 : w ∈ coerced := mem_pySort.mp hw1
    obtain ⟨a, -, hcoe⟩ := mapM_ok_mem hco hw2
    exact coerce_is_valid hcoe

/-- The stored fields of a float interval built from finite float bounds. -/
theorem intervalInit_float_fields {name : String} {mn mx : ℚ} {default : Option PyVal}
    {s : IntervalSpec}
    (h : IntervalSpec.init name "float" (some (.float (.fin mn))) (some (.float (.fin mx)))
        default = .ok s) :
    s.dtype = ParameterDatatype.float ∧ s.min = .float (.fin mn)
      ∧ s.max = .float (.fin mx) ∧ mn ≤ mx := by
  obtain ⟨d, mnv, mxv, dflt2, hd, hmn, hmx, hgt, hs⟩ := intervalInit_inversion h
  simp only [ParameterDatatype.ofName, Except.ok.injEq] at hd
  subst hd
  simp only [ParameterDatatype.coerce_if_set, ParameterDatatype.coerce,
    ParameterDatatype.is_valid, if_true, Except.ok.injEq] at hmn hmx
  subst hmn
  subst hmx
  simp only [pyGt, pyLt, PyVal.toPF, PFloat.ltB, Except.ok.injEq] at hgt
  subst hs
  refine ⟨rfl, rfl, rfl, ?_⟩
  exact not_lt.mp (by simpa using hgt.symm)

/-- The stored fields of an int interval built from int bounds. -/
theorem intervalInit_int_fields {name : String} {a b : ℤ} {default : Option PyVal}
    {s : IntervalSpec}
    (h : IntervalSpec.init name "int" (some (.int a)) (some (.int b)) default = .ok s) :
    s.dtype = ParameterDatatype.int ∧ s.min = .int a ∧ s.max = .int b ∧ a ≤ b := by
  obtain ⟨d, mnv, mxv, dflt2, hd, hmn, hmx, hgt, hs⟩ := intervalInit_inversion h
  simp only [ParameterDatatype.ofName, Except.ok.injEq] at hd
  subst hd
  simp only [ParameterDatatype.coerce_if_set, ParameterDatatype.coerce,
    ParameterDatatype.is_valid, if_true, Except.ok.injEq] at hmn hmx
  subst hmn
  subst hmx
  simp only [pyGt, pyLt, PyVal.toPF, PFloat.ltB, Except.ok.injEq] at hgt
  subst hs
  refine ⟨rfl, rfl, rfl, ?_⟩
  have : ¬((b : ℚ) < (a : ℚ)) := by simpa using hgt.symm
  exact_mod_cast not_lt.mp this

/-- C3: an `IntervalSpec` whose two bounds are finite decodes a scalar
`x` in [0,1) to the linear map `x * (max - min) + min` coerced to the
declared datatype: for dtype float the exact linear value, for dtype int
its truncation toward zero. -/
theorem C3_interval_linear_map :
    (∀ (name : String) (mn mx : ℚ) (default : Option PyVal) (s : IntervalSpec) (v : ℚ),
      IntervalSpec.init name "float" (some (.float (.fin mn))) (some (.float (.fin mx)))
          default = .ok s →
      0 ≤ v → v < 1 →
      s.choose (.float (.fin v)) = .ok (.float (.fin (v * (mx - mn) + mn))))
  ∧ (∀ (name : String) (a b : ℤ) (default : Option PyVal) (s : IntervalSpec) (v : ℚ),
      IntervalSpec.init name "int" (some (.int a)) (some (.int b)) default = .ok s →
      0 ≤ v → v < 1 →
      s.choose (.float (.fin v)) = .ok (.int (truncQ (v * ((b : ℚ) - (a : ℚ)) + (a : ℚ))))) := by
  constructor
  · intro name mn mx default s v hs h0 h1
    obtain ⟨hd, hmin, hmax, -⟩ := intervalInit_float_fields hs
    unfold IntervalSpec.choose
    rw [hmin, hmax]
    simp [pySub, pyMul, pyAdd, PyVal.toZ, PyVal.toPF, PFloat.sub, PFloat.mul, PFloat.add,
      IntervalSpec.coerce, hd, ParameterDatatype.coerce, ParameterDatatype.is_valid]
  · intro name a b default s v hs h0 h1
    obtain ⟨hd, hmin, hmax, -⟩ := intervalInit_int_fields hs
    unfold IntervalSpec.choose
    rw [hmin, hmax]
    have hcast : ((b - a : ℤ) : ℚ) = (b : ℚ) - (a : ℚ) := by push_cast; ring
    simp [pySub, pyMul, pyAdd, PyVal.toZ, PyVal.toPF, PFloat.sub, PFloat.mul, PFloat.add,
      IntervalSpec.coerce, hd, ParameterDatatype.coerce, ParameterDatatype.is_valid,
      ParameterDatatype.convert, hcast]

set_option maxHeartbeats 1000000 in
/-- Witness for C3 at the spec example: `Interval(min=0, max=4)` with
`choose(0.5)` gives exactly 2. -/
theorem C3_witness :
    IntervalSpec.init "w" "float" (some (.float (.fin 0))) (some (.float (.fin 4)))
        Option.none
      = .ok (IntervalSpec.mk "w" ParameterDatatype.float (.float (.fin 0))
          (.float (.fin 4)) (.float (.fin 2)))
  ∧ (IntervalSpec.mk "w" ParameterDatatype.float (.float (.fin 0)) (.float (.fin 4))
        (.float (.fin 2))).choose (.float (.fin (1/2))) = .ok (.float (.fin 2)) := by
  have hinit : IntervalSpec.init "w" "float" (some (.float (.fin 0)))
      (some (.float (.fin 4))) Option.none
      = .ok (IntervalSpec.mk "w" ParameterDatatype.float (.float (.fin 0))
          (.float (.fin 4)) (.float (.fin 2))) := by
    norm_num [IntervalSpec.init, intervalDefault, ParameterDatatype.ofName,
      ParameterDatatype.coerce_if_set, ParameterDatatype.coerce, ParameterDatatype.is_valid,
      pyGt, pyLt, PyVal.toPF, PyVal.toZ, PFloat.ltB, pyEqB, PFloat.eqB, pyAdd, pyDiv,
      PFloat.add, PFloat.divNZ, IntervalSpec.is_valid, pyGe, pyLe, PFloat.leB]
  refine ⟨hinit, ?_⟩
  have h := C3_interval_linear_map.1 "w" 0 4 Option.none _ (1/2) hinit
    (by norm_num) (by norm_num)
  rw [show ((1 : ℚ)/2 * (4 - 0) + 0 : ℚ) = 2 by norm_num] at h
  exact h

/-- Python indexing at a valid nonnegative index. -/
theorem pyIndex_nonneg {l : List PyVal} {i : ℤ} (h0 : 0 ≤ i) (h1 : i.toNat < l.length) :
    pyIndex l i = .ok (l.getD i.toNat PyVal.none) := by
  unfold pyIndex
  rw [dif_pos ⟨h0, h1⟩, List.getD_eq_get l PyVal.none h1]

/-- The `choose` computation of a `ChoiceSpec` on a scalar in [0,1):
`int(mapping * len(choices))` is `⌊v * n⌋`, a valid index. -/
theorem choiceChoose_floorIdx (s : ChoiceSpec) (v : ℚ)
    (h0 : 0 ≤ v) (h1 : v < 1) (hne : s.choices ≠ []) :
    s.choose (.float (.fin v))
        = .ok (s.choices.getD (⌊v * (s.choices.length : ℚ)⌋).toNat PyVal.none)
    ∧ (⌊v * (s.choices.length : ℚ)⌋).toNat < s.choices.length := by
  have hn : 0 < s.choices.length := List.length_pos.mpr hne
  have hnQ : (0 : ℚ) < (s.choices.length : ℚ) := by exact_mod_cast hn
  have hq0 : (0 : ℚ) ≤ v * (s.choices.length : ℚ) := mul_nonneg h0 (le_of_lt hnQ)
  have hfl0 : 0 ≤ ⌊v * (s.choices.length : ℚ)⌋ := Int.floor_nonneg.mpr hq0
  have hqlt : v * (s.choices.length : ℚ) < (s.choices.length : ℚ) := by
    calc v * (s.choices.length : ℚ) < 1 * (s.choices.length : ℚ) :=
          mul_lt_mul_of_pos_right h1 hnQ
      _ = (s.choices.length : ℚ) := one_mul _
  have hflt : ⌊v * (s.choices.length : ℚ)⌋ < (s.choices.length : ℤ) := by
    rw [Int.floor_lt]
    exact_mod_cast hqlt
  have hidx : (⌊v * (s.choices.length : ℚ)⌋).toNat < s.choices.length := by
    omega
  refine ⟨?_, hidx⟩
  unfold ChoiceSpec.choose
  have hmul : pyMul (.float (.fin v)) (.int s.choices.length)
      = .ok (.float (.fin (v * (s.choices.length : ℚ)))) := by
    simp [pyMul, PyVal.toZ, PyVal.toPF, PFloat.mul]
  rw [hmul, exceptBind_ok]
  have hint : pyIntOf (.float (.fin (v * (s.choices.length : ℚ))))
      = .ok ⌊v * (s.choices.length : ℚ)⌋ := by
    simp [pyIntOf, ParameterDatatype.convert, truncQ, hq0]
  rw [hint, exceptBind_ok]
  exact pyIndex_nonneg hfl0 hidx

/-- Truncation toward zero stays inside an integer-bounded interval. -/
theorem truncQ_mem {a b : ℤ} {q : ℚ} (h1 : (a : ℚ) ≤ q) (h2 : q ≤ (b : ℚ)) :
    a ≤ truncQ q ∧ truncQ q ≤ b := by
  unfold truncQ
  split
  · constructor
    · exact Int.le_floor.mpr h1
    · have h3 : (⌊q⌋ : ℚ) ≤ (b : ℚ) := (Int.floor_le q).trans h2
      exact_mod_cast h3
  · constructor
    · have h3 : (a : ℚ) ≤ (⌈q⌉ : ℚ) := h1.trans (Int.le_ceil q)
      exact_mod_cast h3
    · exact Int.ceil_le.mpr h2

/-- C5: for every constructed `ChoiceSpec` and every scalar `v` in [0,1),
`choose(v)` returns the stored (coerced, sorted) choice at integer index
`⌊v * n⌋`, which is always in range; scalar 0.0 selects the first element
of the sorted choices and any scalar at or above `(n-1)/n` (in particular
any scalar just below 1.0) selects the last. -/
theorem C5_choice_floor_index (name : String) (choicesArg : PyVal) (dtypeName : String)
    (default : Option PyVal) (s : ChoiceSpec) (v : ℚ)
    (hs : ChoiceSpec.init name choicesArg dtypeName default = .ok s)
    (h0 : 0 ≤ v) (h1 : v < 1) :
    s.choices ≠ []
    ∧ s.choose (.float (.fin v))
        = .ok (s.choices.getD (⌊v * (s.choices.length : ℚ)⌋).toNat PyVal.none)
    ∧ (⌊v * (s.choices.length : ℚ)⌋).toNat < s.choices.length
    ∧ (v = 0 → s.choose (.float (.fin v)) = .ok (s.choices.getD 0 PyVal.none))
    ∧ (((s.choices.length : ℚ) - 1) / (s.choices.length : ℚ) ≤ v →
        s.choose (.float (.fin v)) = .ok (s.choices.getD (s.choices.length - 1) PyVal.none)) := by
  have hne : s.choices ≠ [] := (choiceSpec_choices_valid hs).1
  obtain ⟨hchoose, hidx⟩ := choiceChoose_floorIdx s v h0 h1 hne
  have hn : 0 < s.choices.length := List.length_pos.mpr hne
  have hnQ : (0 : ℚ) < (s.choices.length : ℚ) := by exact_mod_cast hn
  refine ⟨hne, hchoose, hidx, ?_, ?_⟩
  · intro hv
    subst hv
    simpa using hchoose
  · intro hlast
    have hge : ((s.choices.length : ℚ) - 1) ≤ v * (s.choices.length : ℚ) := by
      rw [div_le_iff hnQ] at hlast
      linarith
    have hqlt : v * (s.choices.length : ℚ) < (s.choices.length : ℚ) := by
      calc v * (s.choices.length : ℚ) < 1 * (s.choices.length : ℚ) :=
            mul_lt_mul_of_pos_right h1 hnQ
        _ = (s.choices.length : ℚ) := one_mul _
    have hfleq : ⌊v * (s.choices.length : ℚ)⌋ = (s.choices.length : ℤ) - 1 := by
      rw [Int.floor_eq_iff]
      constructor
      · push_cast
        linarith
      · push_cast
        linarith
    rw [hchoose, hfleq]
    congr 1
    congr 1
    omega

/-- Witness for C5: the choice list `[2, 1]` with dtype int sorts to
`[1, 2]`, and the scalar 0.75 (at or above `(2-1)/2`) selects the last
element 2 at index `⌊0.75 * 2⌋ = 1`. -/
theorem C5_witness :
    ChoiceSpec.init "d" (.list [.int 2, .int 1]) "int" Option.none
        = .ok (ChoiceSpec.mk "d" ParameterDatatype.int (.int 2) [.int 1, .int 2])
  ∧ (ChoiceSpec.mk "d" ParameterDatatype.int (.int 2)
        [.int 1, .int 2]).choose (.float (.fin (3/4))) = .ok (.int 2) := by
  have hinit : ChoiceSpec.init "d" (.list [.int 2, .int 1]) "int" Option.none
      = .ok (ChoiceSpec.mk "d" ParameterDatatype.int (.int 2) [.int 1, .int 2]) := by
    rfl
  refine ⟨hinit, ?_⟩
  obtain ⟨-, -, -, -, hlast⟩ := C5_choice_floor_index "d" (.list [.int 2, .int 1])
    "int" Option.none _ (3/4) hinit (by norm_num) (by norm_num)
  have h := hlast (by norm_num)
  simpa using h

/-- C2 counterexample: a well-constructed `IntervalSpec` with neither bound
given (both stored as float infinities) chooses nan at the scalar 0.25 —
the always-taken linear branch computes `0.25 * (inf - (-inf)) + (-inf)`,
which is nan — and nan fails `is_valid`, since `nan >= -inf` is False.
The validation round-trip claim therefore fails as stated. -/
theorem C2_counterexample :
    (IntervalSpec.init "a" "float" Option.none Option.none Option.none).bind
        (fun s => (s.choose (.float (.fin (1/4)))).bind (fun w => s.is_valid w))
      = .ok false := by
  norm_num [IntervalSpec.init, IntervalSpec.choose, IntervalSpec.is_valid,
    IntervalSpec.coerce, intervalDefault, ParameterDatatype.ofName,
    ParameterDatatype.coerce_if_set, ParameterDatatype.coerce, ParameterDatatype.is_valid,
    ParameterDatatype.convert, pyGt, pyLt, pyGe, pyLe, pyEqB, pyAdd, pySub, pyMul, pyDiv,
    PyVal.toPF, PyVal.toZ, PFloat.ltB, PFloat.leB, PFloat.eqB, PFloat.add, PFloat.sub,
    PFloat.mul, Except.bind]

/-- C2 as amended: the decode/validate round-trip holds for the spec kinds
whose `choose` is reachable and real-valued — an `IntervalSpec` whose two
stored bounds are finite (float or int dtype) and a `ChoiceSpec` whose
stored choices are self-equal under Python `==` (that is, not nan; the
identity shortcut of Python `in` is outside the value model).  For an
`IntervalSpec` with an absent bound the linear branch produces nan or an
infinity and nan fails `is_valid`; `StringSpec`, `ListSpec` and
`Point2DSpec` inherit the `NotImplementedError` base `choose`, and
`FixedSpec` cannot be constructed. -/
theorem C2_roundtrip_amended :
    (∀ (name : String) (mn mx : ℚ) (default : Option PyVal) (s : IntervalSpec) (v : ℚ),
      IntervalSpec.init name "float" (some (.float (.fin mn))) (some (.float (.fin mx)))
          default = .ok s → 0 ≤ v → v < 1 →
      ∃ w, s.choose (.float (.fin v)) = .ok w ∧ s.is_valid w = .ok true)
  ∧ (∀ (name : String) (a b : ℤ) (default : Option PyVal) (s : IntervalSpec) (v : ℚ),
      IntervalSpec.init name "int" (some (.int a)) (some (.int b)) default = .ok s →
      0 ≤ v → v < 1 →
      ∃ w, s.choose (.float (.fin v)) = .ok w ∧ s.is_valid w = .ok true)
  ∧ (∀ (name : String) (choicesArg : PyVal) (dtypeName : String) (default : Option PyVal)
      (s : ChoiceSpec) (v : ℚ),
      ChoiceSpec.init name choicesArg dtypeName default = .ok s →
      (∀ c ∈ s.choices, pyEqB c c = true) → 0 ≤ v → v < 1 →
      ∃ w, s.choose (.float (.fin v)) = .ok w ∧ s.is_valid w = true) := by
  refine ⟨?_, ?_, ?_⟩
  · intro name mn mx default s v hs h0 h1
    obtain ⟨hd, hmin, hmax, hle⟩ := intervalInit_float_fields hs
    refine ⟨.float (.fin (v * (mx - mn) + mn)), ?_, ?_⟩
    · unfold IntervalSpec.choose
      rw [hmin, hmax]
      simp [pySub, pyMul, pyAdd, PyVal.toZ, PyVal.toPF, PFloat.sub, PFloat.mul, PFloat.add,
        IntervalSpec.coerce, hd, ParameterDatatype.coerce, ParameterDatatype.is_valid]
    · have hgap : (0 : ℚ) ≤ (1 - v) * (mx - mn) :=
        mul_nonneg (by linarith) (by linarith)
      have hge : mn ≤ v * (mx - mn) + mn := by nlinarith
      have hlee : v * (mx - mn) + mn ≤ mx := by nlinarith
      unfold IntervalSpec.is_valid
      rw [hmin, hmax]
      simp [pyGe, pyLe, PyVal.toPF, PFloat.leB, hge, hlee, hd, ParameterDatatype.is_valid]
  · intro name a b default s v hs h0 h1
    obtain ⟨hd, hmin, hmax, hab⟩ := intervalInit_int_fields hs
    have habQ : (a : ℚ) ≤ (b : ℚ) := by exact_mod_cast hab
    have hql : (a : ℚ) ≤ v * ((b : ℚ) - (a : ℚ)) + (a : ℚ) := by nlinarith
    have hgap : (0 : ℚ) ≤ (1 - v) * ((b : ℚ) - (a : ℚ)) :=
      mul_nonneg (by linarith) (by linarith)
    have hqu : v * ((b : ℚ) - (a : ℚ)) + (a : ℚ) ≤ (b : ℚ) := by nlinarith
    obtain ⟨htl, htu⟩ := truncQ_mem hql hqu
    refine ⟨.int (truncQ (v * ((b : ℚ) - (a : ℚ)) + (a : ℚ))), ?_, ?_⟩
    · unfold IntervalSpec.choose
      rw [hmin, hmax]
      have hcast : ((b - a : ℤ) : ℚ) = (b : ℚ) - (a : ℚ) := by push_cast; ring
      simp [pySub, pyMul, pyAdd, PyVal.toZ, PyVal.toPF, PFloat.sub, PFloat.mul, PFloat.add,
        IntervalSpec.coerce, hd, ParameterDatatype.coerce, ParameterDatatype.is_valid,
        ParameterDatatype.convert, hcast]
    · have htlQ : (a : ℚ) ≤ ((truncQ (v * ((b : ℚ) - (a : ℚ)) + (a : ℚ)) : ℤ) : ℚ) := by
        exact_mod_cast htl
      have htuQ : ((truncQ (v * ((b : ℚ) - (a : ℚ)) + (a : ℚ)) : ℤ) : ℚ) ≤ (b : ℚ) := by
        exact_mod_cast htu
      unfold IntervalSpec.is_valid
      rw [hmin, hmax]
      simp [pyGe, pyLe, PyVal.toPF, PFloat.leB, htlQ, htuQ, hd, ParameterDatatype.is_valid]
  · intro name choicesArg dtypeName default s v hs hrefl h0 h1
    have hne : s.choices ≠ [] := (choiceSpec_choices_valid hs).1
    obtain ⟨hchoose, hidx⟩ := choiceChoose_floorIdx s v h0 h1 hne
    set idx := (⌊v * (s.choices.length : ℚ)⌋).toNat with hidxdef
    have hmem : s.choices.getD idx PyVal.none ∈ s.choices := by
      rw [List.getD_eq_get s.choices PyVal.none hidx]
      exact List.get_mem s.choices idx hidx
    refine ⟨s.choices.getD idx PyVal.none, hchoose, ?_⟩
    unfold ChoiceSpec.is_valid
    rw [Bool.and_eq_true]
    constructor
    · exact (choiceSpec_choices_valid hs).2 _ hmem
    · rw [List.any_eq_true]
      exact ⟨s.choices.getD idx PyVal.none, hmem, hrefl _ hmem⟩

set_option maxHeartbeats 1000000 in
/-- Witness for C2 as amended: the round-trip at the finite float interval
`[0, 4]` with scalar 0.5, and at the int choice list `[1, 2]` with scalar
0.75. -/
theorem C2_witness :
    (∃ w, (IntervalSpec.mk "w" ParameterDatatype.float (.float (.fin 0)) (.float (.fin 4))
          (.float (.fin 2))).choose (.float (.fin (1/2))) = .ok w
        ∧ (IntervalSpec.mk "w" ParameterDatatype.float (.float (.fin 0)) (.float (.fin 4))
          (.float (.fin 2))).is_valid w = .ok true)
  ∧ (∃ w, (ChoiceSpec.mk "d" ParameterDatatype.int (.int 2) [.int 1, .int 2]).choose
          (.float (.fin (3/4))) = .ok w
        ∧ (ChoiceSpec.mk "d" ParameterDatatype.int (.int 2) [.int 1, .int 2]).is_valid w
          = true) := by
  constructor
  · have hinit : IntervalSpec.init "w" "float" (some (.float (.fin 0)))
        (some (.float (.fin 4))) Option.none
        = .ok (IntervalSpec.mk "w" ParameterDatatype.float (.float (.fin 0))
            (.float (.fin 4)) (.float (.fin 2))) := by
      norm_num [IntervalSpec.init, intervalDefault, ParameterDatatype.ofName,
        ParameterDatatype.coerce_if_set, ParameterDatatype.coerce,
        ParameterDatatype.is_valid, pyGt, pyLt, PyVal.toPF, PyVal.toZ, PFloat.ltB, pyEqB,
        PFloat.eqB, pyAdd, pyDiv, PFloat.add, PFloat.divNZ, IntervalSpec.is_valid, pyGe,
        pyLe, PFloat.leB]
    exact C2_roundtrip_amended.1 "w" 0 4 Option.none _ (1/2) hinit (by norm_num)
      (by norm_num)
  · have hinit : ChoiceSpec.init "d" (.list [.int 2, .int 1]) "int" Option.none
        = .ok (ChoiceSpec.mk "d" ParameterDatatype.int (.int 2) [.int 1, .int 2]) := rfl
    exact C2_roundtrip_amended.2.2 "d" (.list [.int 2, .int 1]) "int" Option.none _ (3/4)
      hinit (by decide) (by norm_num) (by norm_num)

/-- C6 (spec-modelled: the String decoder belongs to the schema Value
Chooser, which is not under `src/` — `StringSpec` in parameter.py:339
inherits `ParameterSpec.choose`, parameter.py:159-160, which raises
`NotImplementedError`): a String spec with no declared length bounds
decodes any numeric scalar to a string of length exactly
`min(10, +∞) = 10` whose characters all come from the lowercase
hexadecimal alphabet `0123456789abcdef`. -/
theorem C6_string_default_length (x : ℚ) :
    (stringChoose Option.none Option.none x).length = 10
  ∧ ((stringChoose Option.none Option.none x).toList.all
      (fun c => decide (c ∈ hexAlphabet))) = true := by
  constructor
  · show (String.mk _).length = 10
    simp [stringChoose, stringLength, String.length]
  · rw [List.all_eq_true]
    intro c hc
    have hc2 : c ∈ ((List.range (stringLength Option.none Option.none)).map
        (fun i => hexAlphabet.getD
          ((⌊x * (16 : ℚ) ^ (stringLength Option.none Option.none)⌋).toNat / 16 ^ i % 16)
          '0')).reverse := hc
    rw [List.mem_reverse, List.mem_map] at hc2
    obtain ⟨i, -, hci⟩ := hc2
    have hlt : (⌊x * (16 : ℚ) ^ (stringLength Option.none Option.none)⌋).toNat / 16 ^ i % 16
        < hexAlphabet.length := by
      have : (16 : ℕ) = hexAlphabet.length := by decide
      omega
    rw [← hci, List.getD_eq_get hexAlphabet '0' hlt]
    simp [List.get_mem]

/-- Inverting a successful `Option` bind. -/
theorem bindO_eq_some {α β : Type} {x : Option α} {f : α → Option β} {b : β} :
    (x >>= f) = some b ↔ ∃ a, x = some a ∧ f a = some b := by
  cases x <;> simp

/-- Evaluation rule: `pure` in the `Option` monad. -/
@[simp] theorem optionPure {α : Type} (a : α) : (pure a : Option α) = some a := rfl

/-- An Object decode always yields a name-keyed mapping. -/
theorem choose_obj_shape {f : ℕ} {R : Resolver} {props : List (String × Schema)}
    {v : List ℚ} {val : DecodedValue} {rest : List ℚ}
    (h : choose f R (.obj props) v = some (val, rest)) : ∃ fs, val = .obj fs := by
  cases f with
  | zero => simp [choose] at h
  | succ f =>
    simp only [choose] at h
    cases hsp : sortProps props with
    | nil =>
      rw [hsp] at h
      simp at h
      exact ⟨[], h.1.symm⟩
    | cons p ps =>
      rw [hsp] at h
      rw [bindO_eq_some] at h; obtain ⟨⟨x, v1⟩, -, h⟩ := h
      rw [bindO_eq_some] at h; obtain ⟨⟨r2, v2⟩, -, h⟩ := h
      cases r2 with
      | obj fs =>
        simp at h
        exact ⟨(p.1, x) :: fs, h.1.symm⟩
      | num xr => simp at h
      | str sr => simp at h
      | arr xs => simp at h

/-- An Array decode always yields an ordered list. -/
theorem choose_arr_shape {f : ℕ} {R : Resolver} {item : Schema} {m : ℕ}
    {v : List ℚ} {val : DecodedValue} {rest : List ℚ}
    (h : choose f R (.arr item m) v = some (val, rest)) : ∃ xs, val = .arr xs := by
  cases f with
  | zero => simp [choose] at h
  | succ f =>
    simp only [choose] at h
    cases m with
    | zero =>
      simp at h
      exact ⟨[], h.1.symm⟩
    | succ m =>
      rw [bindO_eq_some] at h; obtain ⟨⟨x, v1⟩, -, h⟩ := h
      rw [bindO_eq_some] at h; obtain ⟨⟨r2, v2⟩, -, h⟩ := h
      cases r2 with
      | arr xs =>
        simp at h
        exact ⟨x :: xs, h.1.symm⟩
      | num xr => simp at h
      | str sr => simp at h
      | obj fs => simp at h

/-- Cardinality/consumption agreement, in its inductive form: when the
Cardinality Counter returns `n` and the sample vector offers at least `n`
scalars in [0,1), the Value Chooser succeeds and consumes exactly the
first `n` of them. -/
theorem choose_consumes (f : ℕ) :
    ∀ (R : Resolver) (S : Schema) (v : List ℚ) (n : ℕ),
    (∀ x ∈ v, 0 ≤ x ∧ x < 1) → cardinality f R S = some n → n ≤ v.length →
    ∃ val, choose f R S v = some (val, v.drop n) := by
  induction f with
  | zero =>
    intro R S v n hv hcard hlen
    simp [cardinality] at hcard
  | succ f ih =>
    intro R S v n hv hcard hlen
    cases S with
    | obj props =>
      simp only [cardinality] at hcard
      simp only [choose]
      cases hsp : sortProps props with
      | nil =>
        rw [hsp] at hcard
        simp at hcard
        subst hcard
        exact ⟨.obj [], by simp⟩
      | cons p ps =>
        obtain ⟨nm, c⟩ := p
        rw [hsp] at hcard
        rw [bindO_eq_some] at hcard; obtain ⟨n1, hn1, hcard⟩ := hcard
        rw [bindO_eq_some] at hcard; obtain ⟨n2, hn2, hcard⟩ := hcard
        rw [optionPure, Option.some.injEq] at hcard
        subst hcard
        obtain ⟨val1, hval1⟩ := ih R c v n1 hv hn1 (by omega)
        have hv2 : ∀ x ∈ v.drop n1, 0 ≤ x ∧ x < 1 :=
          fun x hx => hv x ((List.drop_sublist n1 v).mem hx)
        have hlen2 : n2 ≤ (v.drop n1).length := by
          rw [List.length_drop]
          omega
        obtain ⟨val2, hval2⟩ := ih R (.obj ps) (v.drop n1) n2 hv2 hn2 hlen2
        obtain ⟨fs, rfl⟩ := choose_obj_shape hval2
        have hdd : (v.drop n1).drop n2 = v.drop (n1 + n2) := by
          rw [List.drop_drop]
        refine ⟨.obj ((nm, val1) :: fs), ?_⟩
        rw [bindO_eq_some]
        refine ⟨(val1, v.drop n1), by rw [hval1], ?_⟩
        rw [bindO_eq_some]
        refine ⟨(.obj fs, (v.drop n1).drop n2), by rw [hval2], ?_⟩
        simp [hdd]
    | arr item m =>
      simp only [cardinality] at hcard
      simp only [choose]
      cases m with
      | zero =>
        simp at hcard
        subst hcard
        exact ⟨.arr [], by simp⟩
      | succ m =>
        rw [bindO_eq_some] at hcard; obtain ⟨n1, hn1, hcard⟩ := hcard
        rw [bindO_eq_some] at hcard; obtain ⟨n2, hn2, hcard⟩ := hcard
        rw [optionPure, Option.some.injEq] at hcard
        subst hcard
        obtain ⟨val1, hval1⟩ := ih R item v n1 hv hn1 (by omega)
        have hv2 : ∀ x ∈ v.drop n1, 0 ≤ x ∧ x < 1 :=
          fun x hx => hv x ((List.drop_sublist n1 v).mem hx)
        have hlen2 : n2 ≤ (v.drop n1).length := by
          rw [List.length_drop]
          omega
        obtain ⟨val2, hval2⟩ := ih R (.arr item m) (v.drop n1) n2 hv2 hn2 hlen2
        obtain ⟨xs, rfl⟩ := choose_arr_shape hval2
        have hdd : (v.drop n1).drop n2 = v.drop (n1 + n2) := by
          rw [List.drop_drop]
        refine ⟨.arr (val1 :: xs), ?_⟩
        rw [bindO_eq_some]
        refine ⟨(val1, v.drop n1), by rw [hval1], ?_⟩
        rw [bindO_eq_some]
        refine ⟨(.arr xs, (v.drop n1).drop n2), by rw [hval2], ?_⟩
        simp [hdd]
    | enum first restL =>
      simp only [cardinality] at hcard
      simp only [Option.some.injEq] at hcard
      subst hcard
      cases v with
      | nil => simp at hlen
      | cons x v1 =>
        have hx := hv x (by simp)
        have hn : 0 < (first :: restL).length := by simp
        have hnQ : (0 : ℚ) < ((first :: restL).length : ℚ) := by exact_mod_cast hn
        have hq0 : (0 : ℚ) ≤ x * ((first :: restL).length : ℚ) :=
          mul_nonneg hx.1 (le_of_lt hnQ)
        have hfl0 : 0 ≤ ⌊x * ((first :: restL).length : ℚ)⌋ := Int.floor_nonneg.mpr hq0
        have hflt : ⌊x * ((first :: restL).length : ℚ)⌋ < ((first :: restL).length : ℤ) := by
          rw [Int.floor_lt]
          have h2 : x * ((first :: restL).length : ℚ) < 1 * ((first :: restL).length : ℚ) :=
            mul_lt_mul_of_pos_right hx.2 hnQ
          push_cast
          push_cast at h2
          linarith
        have hidx : (⌊x * ((first :: restL).length : ℚ)⌋).toNat < (first :: restL).length := by
          omega
        refine ⟨(first :: restL).get ⟨_, hidx⟩, ?_⟩
        simp only [choose]
        rw [List.get?_eq_get hidx]
        simp
    | ref k =>
      simp only [cardinality] at hcard
      simp only [choose]
      cases hres : resolve R k with
      | none => rw [hres] at hcard; simp at hcard
      | some t =>
        rw [hres] at hcard
        exact ih R t v n hv hcard hlen
    | allOf bs =>
      simp only [cardinality] at hcard
      simp only [choose]
      cases bs with
      | nil =>
        simp at hcard
        subst hcard
        exact ⟨.obj [], by simp⟩
      | cons b rest =>
        rw [bindO_eq_some] at hcard; obtain ⟨n1, hn1, hcard⟩ := hcard
        rw [bindO_eq_some] at hcard; obtain ⟨n2, hn2, hcard⟩ := hcard
        rw [optionPure, Option.some.injEq] at hcard
        subst hcard
        obtain ⟨val1, hval1⟩ := ih R b v n1 hv hn1 (by omega)
        have hv2 : ∀ x ∈ v.drop n1, 0 ≤ x ∧ x < 1 :=
          fun x hx => hv x ((List.drop_sublist n1 v).mem hx)
        have hlen2 : n2 ≤ (v.drop n1).length := by
          rw [List.length_drop]
          omega
        obtain ⟨val2, hval2⟩ := ih R (.allOf rest) (v.drop n1) n2 hv2 hn2 hlen2
        have hdd : (v.drop n1).drop n2 = v.drop (n1 + n2) := by
          rw [List.drop_drop]
        refine ⟨mergeValues val1 val2, ?_⟩
        rw [bindO_eq_some]
        refine ⟨(val1, v.drop n1), by rw [hval1], ?_⟩
        rw [bindO_eq_some]
        refine ⟨(val2, (v.drop n1).drop n2), by rw [hval2], ?_⟩
        simp [hdd]
    | num mn mx =>
      simp only [cardinality, Option.some.injEq] at hcard
      subst hcard
      cases v with
      | nil => simp at hlen
      | cons x v1 => exact ⟨.num (numberDecode mn mx x), by simp only [choose]; simp⟩
    | intP mn mx =>
      simp only [cardinality, Option.some.injEq] at hcard
      subst hcard
      cases v with
      | nil => simp at hlen
      | cons x v1 =>
        exact ⟨.num (truncX (numberDecode mn mx x)), by simp only [choose]; simp⟩
    | strP lo hi =>
      simp only [cardinality, Option.some.injEq] at hcard
      subst hcard
      cases v with
      | nil => simp at hlen
      | cons x v1 => exact ⟨.str (stringChoose lo hi x), by simp only [choose]; simp⟩

/-- C1 (spec-modelled: the `Chooser` that orthogonal.py:47-52 drives as
`chooser.num_parameters()` followed by `chooser.choose(sample)` is
imported from `.parameter` but absent from src/, so the engine is modelled
from spec sections 4.2-4.3): for every schema and resolver, when the
Cardinality Counter reports `n` and the sample vector holds exactly `n`
scalars in [0,1), the decode succeeds and consumes the vector exactly to
its end — the unconsumed tail is empty, and the Chooser only ever takes
scalars from the front of the remaining vector, so no position beyond its
length is read. -/
theorem C1_decode_consumes_exactly (f : ℕ) (R : Resolver) (S : Schema) (v : List ℚ)
    (n : ℕ) (hv : ∀ x ∈ v, 0 ≤ x ∧ x < 1)
    (hcard : cardinality f R S = some n) (hlen : v.length = n) :
    ∃ val, choose f R S v = some (val, ([] : List ℚ)) := by
  obtain ⟨val, hval⟩ := choose_consumes f R S v n hv hcard (le_of_eq hlen.symm)
  refine ⟨val, ?_⟩
  rw [hval, ← hlen, List.drop_length]

/-- Witness for C1: a two-element array of unbounded numbers has
cardinality 2, and decoding it against the two-scalar vector
`[0.5, 1/3]` consumes the vector exactly. -/
theorem C1_witness :
    (∀ x ∈ [(1 : ℚ)/2, 1/3], 0 ≤ x ∧ x < 1)
  ∧ cardinality 3 [] (.arr (.num Option.none Option.none) 2) = some 2
  ∧ [(1 : ℚ)/2, 1/3].length = 2
  ∧ ∃ val, choose 3 [] (.arr (.num Option.none Option.none) 2) [(1 : ℚ)/2, 1/3]
      = some (val, ([] : List ℚ)) := by
  have h1 : ∀ x ∈ [(1 : ℚ)/2, 1/3], 0 ≤ x ∧ x < 1 := by
    intro x hx
    simp at hx
    rcases hx with rfl | rfl <;> norm_num
  have h2 : cardinality 3 [] (.arr (.num Option.none Option.none) 2) = some 2 := rfl
  exact ⟨h1, h2, rfl, C1_decode_consumes_exactly 3 [] _ _ 2 h1 h2 rfl⟩
